import Mathlib

/-!
# Screen sharing agent: display streamer

A shallow embedding of `display_streamer.cc` (namespace `screensharing`) and the
properties of its video-size computation, its frame loop and its restart triggers.

Machine integers are mathematical integers with explicit wrap-around where the
source can overflow.  Values of type `double` are modelled exactly: a finite double
is a dyadic rational `num / 2 ^ exp`, and every arithmetic operation rounds the exact
result to 53 significant bits, ties to even, as IEEE 754 binary64 does.
-/

namespace screensharing

/-! ## Machine integers -/

def INT32_MAX : Int := 2147483647

def INT32_MIN : Int := -2147483648

/-- The value is representable as an `int32_t`. -/
def IsInt32 (v : Int) : Prop := INT32_MIN ≤ v ∧ v ≤ INT32_MAX

instance (v : Int) : Decidable (IsInt32 v) := by
  unfold IsInt32; exact inferInstance

/-- The 32-bit two-complement bit pattern of an integer. -/
def toUInt32 (v : Int) : Nat := (v % 4294967296).toNat

/-- The signed value of a 32-bit pattern. -/
def ofUInt32 (u : Nat) : Int := if u < 2147483648 then (u : Int) else (u : Int) - 4294967296

/-- Modelled from the spec: the `Size` of `geom.h`, which is not among the sources:
a `(width, height)` pair of `int32_t`. -/
structure Size where
  width : Int
  height : Int
  deriving DecidableEq, Repr

/-! ## Doubles -/

/-- A value of type `double`.  `fin num exp` is the real number `num / 2 ^ exp`.  The sign of
a zero is not recorded: `-0.0` and `0.0` compare equal and nothing in `ComputeVideoSize`
tells them apart. -/
inductive F64 where
  | nan : F64
  | inf (negative : Bool) : F64
  | fin (num : Int) (exp : Nat) : F64
  deriving DecidableEq, Repr

def bitLengthAux : Nat → Nat → Nat
  | 0, _ => 0
  | fuel + 1, n => if n = 0 then 0 else bitLengthAux fuel (n / 2) + 1

/-- Number of binary digits of `n`; `0` for `0`. -/
def bitLength (n : Nat) : Nat := bitLengthAux n n

/-- The binary exponent shift `s` used to round `p / q`: the one with
`2 ^ 52 ≤ p * 2 ^ s / q < 2 ^ 53`. -/
def roundShift (p q : Nat) : Int :=
  let s1 : Int := 53 + (bitLength q : Int) - (bitLength p : Int)
  if q * 2 ^ 53 * 2 ^ (-s1).toNat ≤ p * 2 ^ s1.toNat then s1 - 1 else s1

/-- Round the non-negative rational `p / q` (`q > 0`) to the nearest number with 53 significant
bits, ties to even.  The result is `(num, exp)`, standing for `num / 2 ^ exp`.  The exponent
range of binary64 is not modelled: every magnitude that `ComputeVideoSize` produces from
`int32_t` operands is zero or lies between `2 ^ (-84)` and `2 ^ 62`. -/
def roundNearestEven (p q : Nat) : Nat × Nat :=
  if p = 0 then (0, 0)
  else
    let s := roundShift p q
    let n := p * 2 ^ s.toNat
    let d := q * 2 ^ (-s).toNat
    let m := n / d
    let r := n % d
    let m1 := if d < 2 * r ∨ (2 * r = d ∧ m % 2 = 1) then m + 1 else m
    (m1 * 2 ^ (-s).toNat, s.toNat)

/-- The double nearest to `± p / q`. -/
def F64.ofRatio (negative : Bool) (p q : Nat) : F64 :=
  let r := roundNearestEven p q
  F64.fin (if negative then -(r.1 : Int) else (r.1 : Int)) r.2

/-- The conversion `static_cast<double>(v)` of an `int32_t`, which is exact. -/
def F64.ofInt (v : Int) : F64 := F64.fin v 0

/-- The quotient `static_cast<double>(a) / b` of two `int32_t` values, the second promoted to
`double`. -/
def F64.divInt (a b : Int) : F64 :=
  if b = 0 then
    if a = 0 then F64.nan else F64.inf (decide (a < 0))
  else F64.ofRatio (xor (decide (a < 0)) (decide (b < 0))) a.natAbs b.natAbs

/-- The product `w * x` of an `int32_t` promoted to `double` and a double. -/
def F64.mulInt (w : Int) : F64 → F64
  | F64.nan => F64.nan
  | F64.inf negative => if w = 0 then F64.nan else F64.inf (xor negative (decide (w < 0)))
  | F64.fin num exp => F64.ofRatio (decide (w * num < 0)) (w * num).natAbs (2 ^ exp)

/-- The comparison `a < b` of doubles. -/
def F64.lt : F64 → F64 → Bool
  | F64.nan, _ => false
  | _, F64.nan => false
  | F64.inf n1, F64.inf n2 => n1 && !n2
  | F64.inf n1, F64.fin _ _ => n1
  | F64.fin _ _, F64.inf n2 => !n2
  | F64.fin n1 e1, F64.fin n2 e2 => decide (n1 * 2 ^ e2 < n2 * 2 ^ e1)

/-- The function `std::min(a, b)`, which is `(b < a) ? b : a`. -/
def F64.min (a b : F64) : F64 := if F64.lt b a then b else a

/-- The test `x == 0`. -/
def F64.isZero : F64 → Bool
  | F64.fin num _ => decide (num = 0)
  | _ => false

/-- The function `lround`: the nearest integer, halfway cases away from zero.  The result is
`none` where the C library leaves it unspecified (the argument is not finite) and where it
depends on the platform (the rounded value does not fit an `int32_t`, the type of the
parameter it is passed to). -/
def F64.lround : F64 → Option Int
  | F64.fin num exp =>
    let a : Int := ((2 * num.natAbs + 2 ^ exp) / 2 ^ (exp + 1) : Nat)
    let v := if num < 0 then -a else a
    if INT32_MIN ≤ v ∧ v ≤ INT32_MAX then some v else none
  | _ => none

/-! ## `ComputeVideoSize` -/

/-- The function `RoundUpToMultipleOf8`: `(value + 7) & ~7` on `int32_t`; the sum wraps around. -/
def RoundUpToMultipleOf8 (value : Int) : Int :=
  ofUInt32 (toUInt32 (value + 7) &&& 4294967288)

/-- The scale factor of `ComputeVideoSize`. -/
def videoScale (rotated_display_size max_resolution : Size) : F64 :=
  let width := rotated_display_size.width
  let height := rotated_display_size.height
  let scale := F64.min (F64.ofInt 1)
    (F64.min (F64.divInt max_resolution.width width) (F64.divInt max_resolution.height height))
  if scale.isZero then F64.ofInt 1 else scale

/-- The function `ComputeVideoSize`. -/
def ComputeVideoSize (rotated_display_size max_resolution : Size) : Option Size :=
  let scale := videoScale rotated_display_size max_resolution
  match (F64.mulInt rotated_display_size.width scale).lround,
      (F64.mulInt rotated_display_size.height scale).lround with
  | some w, some h => some { width := RoundUpToMultipleOf8 w, height := RoundUpToMultipleOf8 h }
  | _, _ => none

/-! ## Geometry and packet header -/

/-- Modelled from the spec: `NormalizeRotation` of `geom.h`, which is not among the sources:
the rotation reduced to a quadrant in `{0, 1, 2, 3}`. -/
def NormalizeRotation (rotation : Int) : Int := rotation % 4

/-- Modelled from the spec: `Size::Rotated` of `geom.h`, which is not among the sources:
the axes are swapped for an odd number of quadrants. -/
def Size.Rotated (size : Size) (rotation : Int) : Size :=
  if rotation % 2 = 0 then size else { width := size.height, height := size.width }

/-- The struct `DisplayInfo` of `accessors/display_info.h`. -/
structure DisplayInfo where
  logical_size : Size
  rotation : Int
  layer_stack : Int
  flags : Int
  deriving DecidableEq, Repr

/-- The display dimensions in the canonical orientation. -/
def DisplayInfo.NaturalSize (display_info : DisplayInfo) : Size :=
  display_info.logical_size.Rotated (-display_info.rotation)

/-- Modelled from the spec: the `VideoPacketHeader` of `video_packet_header.h`, which is not
among the sources.  The width of its fields is not known; they are unbounded integers here. -/
structure VideoPacketHeader where
  display_width : Int
  display_height : Int
  display_orientation : Int
  display_orientation_correction : Int
  frame_number : Int
  origination_timestamp_us : Int
  presentation_timestamp_us : Int
  packet_size : Int
  deriving DecidableEq, Repr

/-! ## Machine integers of 64 bits -/

/-- Wrap an integer to `int32_t`. -/
def wrapInt32 (v : Int) : Int := (v + 2147483648) % 4294967296 - 2147483648

/-- Wrap an integer to `int64_t`. -/
def wrapInt64 (v : Int) : Int :=
  (v + 9223372036854775808) % 18446744073709551616 - 9223372036854775808

/-- The conversion to `size_t`, taken to be 64 bits wide. -/
def toSizeT (v : Int) : Int := v % 18446744073709551616

/-! ## The encoder output buffer -/

def MAX_SUBSEQUENT_ERRORS : Int := 10

/-- The value of `AMEDIACODEC_BUFFER_FLAG_CODEC_CONFIG` in the NDK. -/
def AMEDIACODEC_BUFFER_FLAG_CODEC_CONFIG : Nat := 2

/-- The value of `AMEDIACODEC_BUFFER_FLAG_END_OF_STREAM` in the NDK. -/
def AMEDIACODEC_BUFFER_FLAG_END_OF_STREAM : Nat := 4

/-- The value of `EBADF` on Linux. -/
def EBADF : Int := 9

/-- The value of `EPIPE` on Linux. -/
def EPIPE : Int := 32

/-- The struct `AMediaCodecBufferInfo` of the NDK. -/
structure AMediaCodecBufferInfo where
  offset : Int
  size : Int
  presentationTimeUs : Int
  flags : Nat
  deriving DecidableEq, Repr

/-- What the encoder answers to one `CodecOutputBuffer::Deque`: the index returned by
`AMediaCodec_dequeueOutputBuffer`, the buffer info it fills in, and whether
`AMediaCodec_getOutputBuffer` returns a null pointer. -/
structure DequeueResult where
  index : Int
  info : AMediaCodecBufferInfo
  buffer_is_null : Bool
  deriving DecidableEq, Repr

/-- The method `CodecOutputBuffer::Deque`, from the value of the static
`consequent_error_count` to the returned flag and the new value of the counter;
`none` is `Log::Fatal`, which ends the process. -/
def CodecOutputBuffer.Deque (consequent_error_count : Int) (r : DequeueResult) :
    Option (Bool × Int) :=
  if r.index < 0 then
    if consequent_error_count + 1 ≥ MAX_SUBSEQUENT_ERRORS then none
    else some (false, consequent_error_count + 1)
  else if r.buffer_is_null then some (false, 0)
  else some (true, 0)

def AMediaCodecBufferInfo.IsEndOfStream (info : AMediaCodecBufferInfo) : Bool :=
  info.flags &&& AMEDIACODEC_BUFFER_FLAG_END_OF_STREAM != 0

def AMediaCodecBufferInfo.IsConfig (info : AMediaCodecBufferInfo) : Bool :=
  info.flags &&& AMEDIACODEC_BUFFER_FLAG_CODEC_CONFIG != 0

/-! ## The streamer -/

/-- An observable action of the agent on the platform, in the order it happens.
`StopCodec` records an entry into `DisplayStreamer::StopCodec`; `writev` records the two
elements of one scatter-write: the header and the length of the payload element. -/
inductive Effect where
  | StopCodec : Effect
  | AMediaCodec_stop (codec : Nat) : Effect
  | FreezeRotation (orientation : Int) : Effect
  | ThawRotation : Effect
  | close (fd : Int) : Effect
  | writev (header : VideoPacketHeader) (info : AMediaCodecBufferInfo) (iov_len : Int) : Effect
  | write (channel_header : String) : Effect
  | WatchRotation : Effect
  | CreateDisplay (secure : Bool) : Effect
  | AMediaCodec_configure (video_size : Size) : Effect
  | ConfigureDisplay (rotation : Int) (projected_size : Size) : Effect
  | AMediaCodec_start (codec : Nat) : Effect
  | DestroyDisplay : Effect
  | AMediaCodec_delete (codec : Nat) : Effect
  | AgentShutdown : Effect
  deriving DecidableEq, Repr

/-- The fields of `DisplayStreamer`, the `display_rotation` of its rotation watcher, the static
`consequent_error_count` of `CodecOutputBuffer`, and the effects so far.  A codec is named by
a number; `running_codec_` is `none` for a null pointer. -/
structure DisplayStreamer where
  display_id_ : Int
  codec_name_ : String
  socket_fd_ : Int
  presentation_timestamp_offset_ : Int
  stopped_ : Bool
  display_info_ : DisplayInfo
  max_video_resolution_ : Size
  video_orientation_ : Int
  running_codec_ : Option Nat
  display_rotation : Int
  consequent_error_count : Int
  log : List Effect
  deriving DecidableEq, Repr

/-- The constructor of `DisplayStreamer`. -/
def DisplayStreamer.new (display_id : Int) (codec_name : String) (max_video_resolution : Size)
    (initial_video_orientation : Int) (socket_fd : Int) : DisplayStreamer :=
  { display_id_ := display_id
    codec_name_ := codec_name
    socket_fd_ := socket_fd
    presentation_timestamp_offset_ := 0
    stopped_ := false
    display_info_ := { logical_size := { width := 0, height := 0 }, rotation := 0,
                       layer_stack := 0, flags := 0 }
    max_video_resolution_ := max_video_resolution
    video_orientation_ := initial_video_orientation
    running_codec_ := none
    display_rotation := -1
    consequent_error_count := 0
    log := [] }

def DisplayStreamer.emit (s : DisplayStreamer) (e : Effect) : DisplayStreamer :=
  { s with log := s.log ++ [e] }

/-- The method `DisplayStreamer::StopCodecUnlocked`. -/
def DisplayStreamer.StopCodecUnlocked (s : DisplayStreamer) : DisplayStreamer :=
  match s.running_codec_ with
  | some codec => { s.emit (Effect.AMediaCodec_stop codec) with running_codec_ := none }
  | none => s

/-- The method `DisplayStreamer::StopCodec`. -/
def DisplayStreamer.StopCodec (s : DisplayStreamer) : DisplayStreamer :=
  (s.emit Effect.StopCodec).StopCodecUnlocked

/-- The method `DisplayStreamer::IsCodecRunning`. -/
def DisplayStreamer.IsCodecRunning (s : DisplayStreamer) : Bool :=
  s.running_codec_.isSome

/-- The method `DisplayStreamer::SetVideoOrientation`; `rotation_was_frozen` is what
`WindowManager::IsRotationFrozen` answers. -/
def DisplayStreamer.SetVideoOrientation (s : DisplayStreamer) (orientation : Int)
    (rotation_was_frozen : Bool) : DisplayStreamer :=
  let orientation := if orientation < 0 then s.video_orientation_ else orientation
  if orientation ≥ 0 then
    let s := s.emit (Effect.FreezeRotation orientation)
    let s := if !rotation_was_frozen then s.emit Effect.ThawRotation else s
    if s.video_orientation_ ≠ orientation then
      { s with video_orientation_ := orientation }.StopCodecUnlocked
    else s
  else s

/-- The method `DisplayStreamer::SetMaxVideoResolution`. -/
def DisplayStreamer.SetMaxVideoResolution (s : DisplayStreamer) (max_video_resolution : Size) :
    DisplayStreamer :=
  if s.max_video_resolution_ ≠ max_video_resolution then
    { s with max_video_resolution_ := max_video_resolution }.StopCodecUnlocked
  else s

/-- The method `DisplayStreamer::Shutdown`. -/
def DisplayStreamer.Shutdown (s : DisplayStreamer) : DisplayStreamer :=
  if s.socket_fd_ > 0 then (s.emit (Effect.close s.socket_fd_)).StopCodec else s

/-- The method `DisplayStreamer::DisplayRotationWatcher::OnRotationChanged`. -/
def DisplayStreamer.OnRotationChanged (s : DisplayStreamer) (new_rotation : Int) :
    DisplayStreamer :=
  let old_rotation := s.display_rotation
  let s := { s with display_rotation := new_rotation }
  if new_rotation ≠ old_rotation then s.StopCodec else s

/-- A call made by another thread while `Run` executes.  Each one is atomic with respect to
the sections of `Run` that hold the mutex. -/
inductive Call where
  | SetVideoOrientation (orientation : Int) (rotation_was_frozen : Bool) : Call
  | SetMaxVideoResolution (max_video_resolution : Size) : Call
  | OnRotationChanged (new_rotation : Int) : Call
  | Shutdown : Call
  deriving DecidableEq, Repr

def DisplayStreamer.call (s : DisplayStreamer) : Call → DisplayStreamer
  | Call.SetVideoOrientation orientation rotation_was_frozen =>
    s.SetVideoOrientation orientation rotation_was_frozen
  | Call.SetMaxVideoResolution max_video_resolution =>
    s.SetMaxVideoResolution max_video_resolution
  | Call.OnRotationChanged new_rotation => s.OnRotationChanged new_rotation
  | Call.Shutdown => s.Shutdown

def DisplayStreamer.calls (s : DisplayStreamer) (cs : List Call) : DisplayStreamer :=
  cs.foldl DisplayStreamer.call s

/-! ## The frame loop -/

/-- What the environment does during one iteration of the loop of
`ProcessFramesUntilStopped`: the calls of other threads that take effect before the loop
condition reads `running_codec_`, the answer of the encoder, the calls that take effect
between the dequeue and the second `IsCodecRunning`, the system clock, and the return value
and `errno` of `writev`. -/
structure FrameStep where
  before : List Call
  dequeue : DequeueResult
  between : List Call
  now_us : Int
  written : Int
  errno : Int
  deriving DecidableEq, Repr

/-- How a function ends: it returns, it ends the process through `Log::Fatal`, or it is still
running when the recorded environment ends. -/
inductive Outcome (α : Type) where
  | returned (value : α) : Outcome α
  | fatal : Outcome α
  | running : Outcome α
  deriving DecidableEq, Repr

/-- The state after `ProcessFramesUntilStopped`: how it ended, the streamer, the packet
header behind the pointer argument. -/
structure FrameLoopResult where
  outcome : Outcome Bool
  streamer : DisplayStreamer
  packet_header : VideoPacketHeader
  deriving DecidableEq, Repr

/-- The body of the loop from the second `IsCodecRunning` on, for a buffer that was dequeued:
the header is filled in and header and payload are passed to one `writev`.  The result is
the new value of `end_of_stream` (`none` for `Log::Fatal`), the streamer and the header. -/
def DisplayStreamer.writeFrame (s : DisplayStreamer) (sizeof_header : Nat) (f : FrameStep)
    (packet_header : VideoPacketHeader) : Option Bool × DisplayStreamer × VideoPacketHeader :=
  let info := f.dequeue.info
  let end_of_stream := info.IsEndOfStream
  let h := { packet_header with origination_timestamp_us := f.now_us }
  let s :=
    if info.IsConfig then s
    else if s.presentation_timestamp_offset_ = 0 then
      { s with presentation_timestamp_offset_ := wrapInt64 (info.presentationTimeUs - 1) }
    else s
  let h :=
    if info.IsConfig then { h with presentation_timestamp_us := 0 }
    else { h with presentation_timestamp_us :=
             wrapInt64 (info.presentationTimeUs - s.presentation_timestamp_offset_) }
  let h := { h with packet_size := info.size }
  let iov_len := toSizeT info.size
  let s := s.emit (Effect.writev h info iov_len)
  let h1 := if info.IsConfig then { h with frame_number := h.frame_number + 1 } else h
  if toSizeT f.written ≠ toSizeT ((sizeof_header : Int) + iov_len) then
    if f.errno ≠ EBADF ∧ f.errno ≠ EPIPE then (none, s, h)
    else (some true, s, h1)
  else (some end_of_stream, s, h1)

/-- The loop of `ProcessFramesUntilStopped`, entered with the current value of
`end_of_stream`. -/
def DisplayStreamer.frameLoop (sizeof_header : Nat) :
    List FrameStep → Bool → DisplayStreamer → VideoPacketHeader → FrameLoopResult
  | _, true, s, h => { outcome := Outcome.returned true, streamer := s, packet_header := h }
  | [], false, s, h => { outcome := Outcome.running, streamer := s, packet_header := h }
  | f :: rest, false, s, h =>
    let s := s.calls f.before
    if !s.IsCodecRunning then
      { outcome := Outcome.returned false, streamer := s, packet_header := h }
    else
      match CodecOutputBuffer.Deque s.consequent_error_count f.dequeue with
      | none => { outcome := Outcome.fatal, streamer := s, packet_header := h }
      | some (false, count) =>
        DisplayStreamer.frameLoop sizeof_header rest false
          { s with consequent_error_count := count } h
      | some (true, count) =>
        let s := { s with consequent_error_count := count }
        let s := s.calls f.between
        if !s.IsCodecRunning then
          { outcome := Outcome.returned false, streamer := s, packet_header := h }
        else
          match s.writeFrame sizeof_header f h with
          | (none, s, h) => { outcome := Outcome.fatal, streamer := s, packet_header := h }
          | (some end_of_stream, s, h) =>
            DisplayStreamer.frameLoop sizeof_header rest end_of_stream s h

/-- The method `DisplayStreamer::ProcessFramesUntilStopped`. -/
def DisplayStreamer.ProcessFramesUntilStopped (s : DisplayStreamer) (sizeof_header : Nat)
    (packet_header : VideoPacketHeader) (steps : List FrameStep) : FrameLoopResult :=
  DisplayStreamer.frameLoop sizeof_header steps false s packet_header

/-! ## `Run` -/

def supported_codecs : List String := ["vp8", "vp9", "h264"]

def CHANNEL_HEADER_LENGTH : Nat := 20

/-- What the environment does during one pass of the loop of `Run`: the codec that
`AMediaCodec_createEncoderByType` returns when the loop creates one, the API level, whether
`CreateDisplay` returns null, the display info, the calls of other threads that take effect
before the mutex is taken, the status of `AMediaCodec_configure` and of
`AMediaCodec_createInputSurface` (`0` is `AMEDIA_OK`), the iterations of the frame loop, and
the calls that take effect between the return of the frame loop and `StopCodec`. -/
structure Session where
  new_codec : Option Nat
  api_level : Int
  display_is_null : Bool
  display_info : DisplayInfo
  before : List Call
  configure_status : Int
  create_surface_status : Int
  frames : List FrameStep
  after : List Call
  deriving DecidableEq, Repr

/-- The state after `Run`. -/
structure RunResult where
  outcome : Outcome Unit
  streamer : DisplayStreamer
  packet_header : VideoPacketHeader
  deriving DecidableEq, Repr

/-- The statements of `Run` after its loop. -/
def DisplayStreamer.finishRun (s : DisplayStreamer) (h : VideoPacketHeader) : RunResult :=
  { outcome := Outcome.returned (), streamer := s.emit Effect.AgentShutdown, packet_header := h }

/-- The statements of one pass of the loop of `Run` from `CreateDisplay` to the end of the
block that holds the mutex: the video size is computed, the codec configured and started,
`running_codec_` set and the display fields of the packet header filled in.  The flag is
`false` when the pass ends in `Log::Fatal`; where `ComputeVideoSize` has no specified value
the process counts as ended too. -/
def DisplayStreamer.startSession (s : DisplayStreamer) (ses : Session) (codec : Nat)
    (h : VideoPacketHeader) : Bool × DisplayStreamer × VideoPacketHeader :=
  let s := s.emit (Effect.CreateDisplay (decide (ses.api_level < 31)))
  if ses.display_is_null then (false, s, h)
  else
    let display_info := ses.display_info
    let s := s.calls ses.before
    let s := { s with display_info_ := display_info }
    let rotation_correction :=
      if s.video_orientation_ ≥ 0 then
        NormalizeRotation (wrapInt32 (s.video_orientation_ - display_info.rotation))
      else 0
    match ComputeVideoSize (display_info.logical_size.Rotated rotation_correction)
        s.max_video_resolution_ with
    | none => (false, s, h)
    | some video_size =>
      let s := s.emit (Effect.AMediaCodec_configure video_size)
      if ses.configure_status ≠ 0 ∨ ses.create_surface_status ≠ 0 then (false, s, h)
      else
        let s := s.emit (Effect.ConfigureDisplay rotation_correction
          (video_size.Rotated (-rotation_correction)))
        let s := s.emit (Effect.AMediaCodec_start codec)
        let s := { s with running_codec_ := some codec }
        let display_size := display_info.NaturalSize
        let h := { h with
          display_width := display_size.width
          display_height := display_size.height
          display_orientation :=
            NormalizeRotation (wrapInt32 (display_info.rotation + rotation_correction))
          display_orientation_correction := NormalizeRotation rotation_correction }
        (true, s, h)

/-- The statements of one pass of the loop of `Run` after `ProcessFramesUntilStopped`:
`StopCodec`, `DestroyDisplay` and `AMediaCodec_delete`. -/
def DisplayStreamer.endSession (s : DisplayStreamer) (ses : Session) (codec : Nat) :
    DisplayStreamer :=
  (((s.calls ses.after).StopCodec.emit Effect.DestroyDisplay).emit
    (Effect.AMediaCodec_delete codec))

/-- The loop `while (!stopped_)` of `Run`; the flag is the value of `stopped_` and `codec`
is the local variable of that name. -/
def DisplayStreamer.runLoop (sizeof_header : Nat) :
    List Session → Bool → Option Nat → DisplayStreamer → VideoPacketHeader → RunResult
  | _, true, _, s, h => s.finishRun h
  | [], false, _, s, h => { outcome := Outcome.running, streamer := s, packet_header := h }
  | ses :: rest, false, codec, s, h =>
    match (if codec.isSome then codec else ses.new_codec) with
    | none => { outcome := Outcome.fatal, streamer := s, packet_header := h }
    | some codec =>
      match s.startSession ses codec h with
      | (false, s, h) => { outcome := Outcome.fatal, streamer := s, packet_header := h }
      | (true, s, h) =>
        let r := s.ProcessFramesUntilStopped sizeof_header h ses.frames
        match r.outcome with
        | Outcome.fatal =>
          { outcome := Outcome.fatal, streamer := r.streamer, packet_header := r.packet_header }
        | Outcome.running =>
          { outcome := Outcome.running, streamer := r.streamer,
            packet_header := r.packet_header }
        | Outcome.returned end_of_stream =>
          let s := r.streamer.endSession ses codec
          if end_of_stream then s.finishRun r.packet_header
          else DisplayStreamer.runLoop sizeof_header rest s.stopped_ none s r.packet_header

/-- The method `DisplayStreamer::Run`; `codec` is what the first
`AMediaCodec_createEncoderByType` returns. -/
def DisplayStreamer.Run (s : DisplayStreamer) (sizeof_header : Nat) (codec : Option Nat)
    (sessions : List Session) : RunResult :=
  let packet_header : VideoPacketHeader :=
    { display_width := 0, display_height := 0, display_orientation := 0,
      display_orientation_correction := 0, frame_number := 1, origination_timestamp_us := 0,
      presentation_timestamp_us := 0, packet_size := 0 }
  if s.codec_name_ ∉ supported_codecs then
    { outcome := Outcome.fatal, streamer := s, packet_header := packet_header }
  else
    match codec with
    | none => { outcome := Outcome.fatal, streamer := s, packet_header := packet_header }
    | some codec =>
      let channel_header :=
        s.codec_name_ ++
          String.mk (List.replicate (CHANNEL_HEADER_LENGTH - s.codec_name_.length) ' ')
      let s := s.emit (Effect.write channel_header)
      let s := s.emit Effect.WatchRotation
      DisplayStreamer.runLoop sizeof_header sessions s.stopped_ (some codec) s packet_header

/-- One scatter-write of the frame loop: the header (first element), the info of the buffer
whose bytes are the payload (second element), and the `iov_len` of the payload element. -/
structure Packet where
  header : VideoPacketHeader
  info : AMediaCodecBufferInfo
  iov_len : Int
  deriving DecidableEq, Repr

/-- The packets passed to `writev`, in order. -/
def packets : List Effect → List Packet
  | [] => []
  | Effect.writev header info iov_len :: rest =>
    { header := header, info := info, iov_len := iov_len } :: packets rest
  | _ :: rest => packets rest

/-- The value of `presentation_timestamp_offset_` after a buffer has been processed. -/
def nextOffset (offset : Int) (info : AMediaCodecBufferInfo) : Int :=
  if info.IsConfig then offset
  else if offset = 0 then wrapInt64 (info.presentationTimeUs - 1) else offset

/-- A property of the packets written so far, of `presentation_timestamp_offset_` and of the
`frame_number` of the packet header is kept by every write of the frame loop. -/
def KeptByWrite
    (I : List Packet → Int → Int → Prop) : Prop :=
  ∀ (pk : List Packet) (offset frame_number : Int)
    (header : VideoPacketHeader) (info : AMediaCodecBufferInfo),
    I pk offset frame_number →
    header.frame_number = frame_number →
    header.packet_size = info.size →
    header.presentation_timestamp_us =
      (if info.IsConfig then 0
       else wrapInt64 (info.presentationTimeUs - nextOffset offset info)) →
    I (pk ++ [{ header := header, info := info, iov_len := toSizeT info.size }])
      (nextOffset offset info)
      (frame_number + if info.IsConfig then 1 else 0)

/-! ## Recorded environments used as examples -/

/-- A streamer for display 0 and codec `h264` on socket 5 that follows the device
orientation. -/
def exampleStreamer : DisplayStreamer :=
  DisplayStreamer.new 0 "h264" { width := 1080, height := 1920 } (-1) 5

/-- An iteration of the frame loop in which the encoder hands out a buffer and `writev`
transfers the 40 bytes of the header and the whole payload. -/
def exampleFrame (size presentationTimeUs : Int) (flags : Nat) : FrameStep :=
  { before := []
    dequeue := { index := 0,
                 info := { offset := 0, size := size, presentationTimeUs := presentationTimeUs,
                           flags := flags },
                 buffer_is_null := false }
    between := []
    now_us := 0
    written := 40 + size
    errno := 0 }

/-- A pass of the loop of `Run` on a 1080 x 1920 display in which every platform call
succeeds. -/
def exampleSession (new_codec : Nat) (frames : List FrameStep) : Session :=
  { new_codec := some new_codec
    api_level := 33
    display_is_null := false
    display_info := { logical_size := { width := 1080, height := 1920 }, rotation := 0,
                      layer_stack := 0, flags := 0 }
    before := []
    configure_status := 0
    create_surface_status := 0
    frames := frames
    after := [] }

/-- The packet header as `Run` has filled it in for the display of `exampleSession`, with the
given timestamp and packet size. -/
def exampleHeader (presentation_timestamp_us packet_size : Int) : VideoPacketHeader :=
  { display_width := 1080, display_height := 1920, display_orientation := 0,
    display_orientation_correction := 0, frame_number := 1, origination_timestamp_us := 0,
    presentation_timestamp_us := presentation_timestamp_us, packet_size := packet_size }

/-- The starts of the encoder sessions and, for every packet, whether its buffer is a config
buffer and the presentation timestamp in its header. -/
def sessionTrace : List Effect → List (Nat ⊕ (Bool × Int))
  | [] => []
  | Effect.AMediaCodec_start codec :: rest => Sum.inl codec :: sessionTrace rest
  | Effect.writev header info _ :: rest =>
    Sum.inr (info.IsConfig, header.presentation_timestamp_us) :: sessionTrace rest
  | _ :: rest => sessionTrace rest

/-- The effects from the first `close` on. -/
def afterClose : List Effect → List Effect
  | [] => []
  | Effect.close fd :: rest => Effect.close fd :: rest
  | _ :: rest => afterClose rest

/-! ## Sequences of dequeue results -/

/-- The static `consequent_error_count` after a sequence of calls of `CodecOutputBuffer::Deque`
that starts with the given value of the counter; `none` once a call has ended the process. -/
def dequeAll : Int → List DequeueResult → Option Int
  | count, [] => some count
  | count, r :: rest =>
    match CodecOutputBuffer.Deque count r with
    | none => none
    | some (_, count) => dequeAll count rest

/-- The length of the run of negative dequeue indices that ends a sequence of dequeue results,
when `n` negative indices precede the sequence. -/
def errorRunFrom (n : Nat) : List DequeueResult → Nat
  | [] => n
  | r :: rest => errorRunFrom (if r.index < 0 then n + 1 else 0) rest

/-- The number of consecutive negative dequeue indices at the end of a sequence, with no
non-negative index in between. -/
def errorRun (rs : List DequeueResult) : Nat := errorRunFrom 0 rs

/-- The streamer at the moment a pass of the loop of `Run` takes the mutex: after
`CreateDisplay` and after the calls of other threads that precede the block. -/
def DisplayStreamer.atLock (s : DisplayStreamer) (ses : Session) : DisplayStreamer :=
  (s.emit (Effect.CreateDisplay (decide (ses.api_level < 31)))).calls ses.before

/-- The packets for buffers that are not config buffers among the packets written after the
first `n` packets of a log: with `n` the number of packets written before a session, the
frames of that session. -/
def framesSince (n : Nat) (log : List Effect) : List Packet :=
  ((packets log).drop n).filter (fun p => !p.info.IsConfig)

/-! ## Restart triggers -/

/-- Claim C9.  A call of `SetVideoOrientation` with a non-negative orientation equal to the
current `video_orientation_` leaves `video_orientation_` and `running_codec_` as they are and
only freezes (and possibly thaws) the rotation: the codec is not stopped.  With a non-negative
orientation that differs from the current one, `video_orientation_` becomes that value and
`running_codec_` is absent afterwards. -/
theorem SetVideoOrientation_same_or_different (s : DisplayStreamer) (orientation : Int)
    (rotation_was_frozen : Bool) (h : 0 ≤ orientation) :
    (orientation = s.video_orientation_ →
      (s.SetVideoOrientation orientation rotation_was_frozen).video_orientation_
          = s.video_orientation_ ∧
      (s.SetVideoOrientation orientation rotation_was_frozen).running_codec_
          = s.running_codec_ ∧
      (s.SetVideoOrientation orientation rotation_was_frozen).log
          = s.log ++ Effect.FreezeRotation orientation ::
              (if rotation_was_frozen then [] else [Effect.ThawRotation])) ∧
    (orientation ≠ s.video_orientation_ →
      (s.SetVideoOrientation orientation rotation_was_frozen).video_orientation_ = orientation ∧
      (s.SetVideoOrientation orientation rotation_was_frozen).running_codec_ = none) := by
  have hneg : ¬ orientation < 0 := not_lt.mpr h
  constructor
  · intro heq
    cases rotation_was_frozen <;>
      simp [DisplayStreamer.SetVideoOrientation, DisplayStreamer.emit, hneg, h, heq.symm]
  · intro hne
    have hne2 : ¬ s.video_orientation_ = orientation := fun e => hne e.symm
    cases rotation_was_frozen <;> cases hc : s.running_codec_ <;>
      simp [DisplayStreamer.SetVideoOrientation, DisplayStreamer.emit,
        DisplayStreamer.StopCodecUnlocked, hneg, h, hne2, hc]

/-- Claim C9, at an instance: orientation 1 is requested while orientation 1 is active and
codec 1 is running; the codec keeps running. -/
theorem SetVideoOrientation_same_or_different_witness :
    (0 : Int) ≤ 1 ∧
    (1 : Int) = DisplayStreamer.video_orientation_
      { exampleStreamer with video_orientation_ := 1, running_codec_ := some 1 } ∧
    (DisplayStreamer.SetVideoOrientation
      { exampleStreamer with video_orientation_ := 1, running_codec_ := some 1 }
      1 false).running_codec_ = some 1 :=
  ⟨by decide, by decide,
    ((SetVideoOrientation_same_or_different
      { exampleStreamer with video_orientation_ := 1, running_codec_ := some 1 }
      1 false (by decide)).1 (by decide)).2.1⟩

/-- Claim C10.  The callback `OnRotationChanged` stores the reported rotation; it enters
`StopCodec` exactly once when the reported rotation differs from the stored one and not at
all when they are equal; on a newly constructed streamer, whose stored rotation is `-1`,
a callback with any of the rotations 0, 1, 2, 3 enters `StopCodec` once. -/
theorem OnRotationChanged_restart (s : DisplayStreamer) (new_rotation : Int) :
    (s.OnRotationChanged new_rotation).display_rotation = new_rotation ∧
    (s.OnRotationChanged new_rotation).log.count Effect.StopCodec
      = s.log.count Effect.StopCodec + (if new_rotation ≠ s.display_rotation then 1 else 0) ∧
    (∀ (display_id : Int) (codec_name : String) (max_video_resolution : Size)
        (initial_video_orientation socket_fd : Int) (r : Fin 4),
      ((DisplayStreamer.new display_id codec_name max_video_resolution
          initial_video_orientation socket_fd).OnRotationChanged (r : Nat)).log.count
        Effect.StopCodec = 1) := by
  refine ⟨?_, ?_, ?_⟩
  · by_cases hne : new_rotation = s.display_rotation <;>
      cases hc : s.running_codec_ <;>
      simp [DisplayStreamer.OnRotationChanged, DisplayStreamer.StopCodec,
        DisplayStreamer.StopCodecUnlocked, DisplayStreamer.emit, hne, hc]
  · by_cases hne : new_rotation = s.display_rotation <;>
      cases hc : s.running_codec_ <;>
      simp [DisplayStreamer.OnRotationChanged, DisplayStreamer.StopCodec,
        DisplayStreamer.StopCodecUnlocked, DisplayStreamer.emit, hne, hc]
  · intro display_id codec_name max_video_resolution initial_video_orientation socket_fd r
    have hne : ¬ ((r : Nat) : Int) = -1 := by omega
    simp [DisplayStreamer.OnRotationChanged, DisplayStreamer.StopCodec,
      DisplayStreamer.StopCodecUnlocked, DisplayStreamer.emit, DisplayStreamer.new, hne]

/-! ## Packets written by the frame loop -/

theorem packets_append (a b : List Effect) : packets (a ++ b) = packets a ++ packets b := by
  induction a with
  | nil => rfl
  | cons e rest ih => cases e <;> simp [packets, ih]

theorem packets_emit (s : DisplayStreamer) (e : Effect) :
    packets (s.emit e).log = packets s.log ++ packets [e] := by
  simp [DisplayStreamer.emit, packets_append]

theorem offset_emit (s : DisplayStreamer) (e : Effect) :
    (s.emit e).presentation_timestamp_offset_ = s.presentation_timestamp_offset_ := rfl

theorem packets_StopCodecUnlocked (s : DisplayStreamer) :
    packets s.StopCodecUnlocked.log = packets s.log := by
  cases hc : s.running_codec_ <;>
    simp [DisplayStreamer.StopCodecUnlocked, DisplayStreamer.emit, hc, packets_append, packets]

theorem offset_StopCodecUnlocked (s : DisplayStreamer) :
    s.StopCodecUnlocked.presentation_timestamp_offset_ = s.presentation_timestamp_offset_ := by
  cases hc : s.running_codec_ <;>
    simp [DisplayStreamer.StopCodecUnlocked, DisplayStreamer.emit, hc]

theorem packets_StopCodec (s : DisplayStreamer) :
    packets s.StopCodec.log = packets s.log := by
  simp [DisplayStreamer.StopCodec, packets_StopCodecUnlocked, packets_emit, packets]

theorem offset_StopCodec (s : DisplayStreamer) :
    s.StopCodec.presentation_timestamp_offset_ = s.presentation_timestamp_offset_ := by
  simp [DisplayStreamer.StopCodec, offset_StopCodecUnlocked, offset_emit]

theorem packets_call (s : DisplayStreamer) (c : Call) :
    packets (s.call c).log = packets s.log ∧
    (s.call c).presentation_timestamp_offset_ = s.presentation_timestamp_offset_ := by
  cases c with
  | SetVideoOrientation orientation rotation_was_frozen =>
    simp only [DisplayStreamer.call, DisplayStreamer.SetVideoOrientation]
    cases rotation_was_frozen <;> split_ifs <;>
      simp [packets_StopCodecUnlocked, offset_StopCodecUnlocked, packets_emit, offset_emit,
        packets]
  | SetMaxVideoResolution max_video_resolution =>
    simp only [DisplayStreamer.call, DisplayStreamer.SetMaxVideoResolution]
    split_ifs <;> simp [packets_StopCodecUnlocked, offset_StopCodecUnlocked]
  | OnRotationChanged new_rotation =>
    simp only [DisplayStreamer.call, DisplayStreamer.OnRotationChanged]
    split_ifs <;> simp [packets_StopCodec, offset_StopCodec]
  | Shutdown =>
    simp only [DisplayStreamer.call, DisplayStreamer.Shutdown]
    split_ifs <;> simp [packets_StopCodec, offset_StopCodec, packets_emit, offset_emit, packets]

theorem packets_calls (cs : List Call) (s : DisplayStreamer) :
    packets (s.calls cs).log = packets s.log ∧
    (s.calls cs).presentation_timestamp_offset_ = s.presentation_timestamp_offset_ := by
  induction cs generalizing s with
  | nil => exact ⟨rfl, rfl⟩
  | cons c rest ih =>
    have h1 := ih (s.call c)
    have h2 := packets_call s c
    simp only [DisplayStreamer.calls, List.foldl_cons] at h1 ⊢
    exact ⟨h1.1.trans h2.1, h1.2.trans h2.2⟩

theorem writeFrame_spec (s : DisplayStreamer) (sizeof_header : Nat) (f : FrameStep)
    (h : VideoPacketHeader) :
    ∃ header : VideoPacketHeader,
      packets (s.writeFrame sizeof_header f h).2.1.log
        = packets s.log ++ [{ header := header, info := f.dequeue.info,
                              iov_len := toSizeT f.dequeue.info.size }] ∧
      header.frame_number = h.frame_number ∧
      header.packet_size = f.dequeue.info.size ∧
      header.presentation_timestamp_us =
        (if f.dequeue.info.IsConfig then 0
         else wrapInt64 (f.dequeue.info.presentationTimeUs
                - nextOffset s.presentation_timestamp_offset_ f.dequeue.info)) ∧
      (s.writeFrame sizeof_header f h).2.1.presentation_timestamp_offset_
        = nextOffset s.presentation_timestamp_offset_ f.dequeue.info ∧
      (∀ end_of_stream, (s.writeFrame sizeof_header f h).1 = some end_of_stream →
        (s.writeFrame sizeof_header f h).2.2.frame_number
          = h.frame_number + if f.dequeue.info.IsConfig then 1 else 0) := by
  refine ⟨{ h with
      origination_timestamp_us := f.now_us
      presentation_timestamp_us :=
        (if f.dequeue.info.IsConfig then 0
         else wrapInt64 (f.dequeue.info.presentationTimeUs
                - nextOffset s.presentation_timestamp_offset_ f.dequeue.info))
      packet_size := f.dequeue.info.size }, ?_, rfl, rfl, rfl, ?_⟩
  · by_cases hc : f.dequeue.info.IsConfig = true
    · simp only [DisplayStreamer.writeFrame]
      split_ifs <;> simp [packets_emit, packets, hc]
    · by_cases h0 : s.presentation_timestamp_offset_ = 0
      · simp only [DisplayStreamer.writeFrame]
        split_ifs <;> simp [packets_emit, packets, hc, h0, nextOffset]
      · simp only [DisplayStreamer.writeFrame]
        split_ifs <;> simp [packets_emit, packets, hc, h0, nextOffset]
  · by_cases hc : f.dequeue.info.IsConfig = true
    · simp only [DisplayStreamer.writeFrame, nextOffset]
      split_ifs <;> simp [hc, offset_emit]
    · by_cases h0 : s.presentation_timestamp_offset_ = 0
      · simp only [DisplayStreamer.writeFrame, nextOffset]
        split_ifs <;> simp [hc, h0, offset_emit]
      · simp only [DisplayStreamer.writeFrame, nextOffset]
        split_ifs <;> simp [hc, h0, offset_emit]

theorem frameLoop_kept
    (I : List Packet → Int → Int → Prop)
    (hI : KeptByWrite I) (sizeof_header : Nat) (steps : List FrameStep) :
    ∀ (end_of_stream : Bool) (s : DisplayStreamer) (h : VideoPacketHeader),
      I (packets s.log) s.presentation_timestamp_offset_ h.frame_number →
      ((DisplayStreamer.frameLoop sizeof_header steps end_of_stream s h).outcome ≠ Outcome.fatal →
        I (packets (DisplayStreamer.frameLoop sizeof_header steps end_of_stream s h).streamer.log)
          (DisplayStreamer.frameLoop sizeof_header steps end_of_stream s
            h).streamer.presentation_timestamp_offset_
          (DisplayStreamer.frameLoop sizeof_header steps end_of_stream s
            h).packet_header.frame_number) ∧
      ∃ frame_number,
        I (packets (DisplayStreamer.frameLoop sizeof_header steps end_of_stream s h).streamer.log)
          (DisplayStreamer.frameLoop sizeof_header steps end_of_stream s
            h).streamer.presentation_timestamp_offset_ frame_number := by
  induction steps with
  | nil =>
    intro end_of_stream s h h0
    cases end_of_stream <;> exact ⟨fun _ => h0, _, h0⟩
  | cons f rest ih =>
    intro end_of_stream s h h0
    cases end_of_stream with
    | true => exact ⟨fun _ => h0, _, h0⟩
    | false =>
      have hb := packets_calls f.before s
      have h1 : I (packets (s.calls f.before).log)
          (s.calls f.before).presentation_timestamp_offset_ h.frame_number := by
        rw [hb.1, hb.2]; exact h0
      simp only [DisplayStreamer.frameLoop]
      split_ifs with hr
      · exact ⟨fun _ => h1, _, h1⟩
      · cases hd : CodecOutputBuffer.Deque (s.calls f.before).consequent_error_count f.dequeue with
        | none => exact ⟨fun _ => h1, _, h1⟩
        | some res =>
          obtain ⟨ok, count⟩ := res
          cases ok with
          | false => exact ih false _ h h1
          | true =>
            have hm := packets_calls f.between
              { s.calls f.before with consequent_error_count := count }
            have h2 : I (packets (DisplayStreamer.calls
                  { s.calls f.before with consequent_error_count := count } f.between).log)
                (DisplayStreamer.calls
                  { s.calls f.before with consequent_error_count := count }
                  f.between).presentation_timestamp_offset_ h.frame_number := by
              rw [hm.1, hm.2]; exact h1
            simp only []
            split_ifs with hr2
            · exact ⟨fun _ => h2, _, h2⟩
            · obtain ⟨header, hp, hfn, hsz, hpts, hoff, hnext⟩ :=
                writeFrame_spec (DisplayStreamer.calls
                  { s.calls f.before with consequent_error_count := count } f.between)
                  sizeof_header f h
              have h3 := hI _ _ _ header f.dequeue.info h2 hfn hsz hpts
              rw [← hp, ← hoff] at h3
              cases hw : (DisplayStreamer.calls
                  { s.calls f.before with consequent_error_count := count }
                  f.between).writeFrame sizeof_header f h with
              | mk eos rest2 =>
                obtain ⟨s2, h2x⟩ := rest2
                rw [hw] at h3 hnext
                cases eos with
                | none => exact ⟨fun hne => absurd rfl hne, _, h3⟩
                | some e =>
                  have h4 := hnext e rfl
                  simp only [] at h3 h4
                  rw [← h4] at h3
                  exact ih e s2 h2x h3

theorem startSession_kept (s : DisplayStreamer) (ses : Session) (codec : Nat)
    (h : VideoPacketHeader) :
    packets (s.startSession ses codec h).2.1.log = packets s.log ∧
    (s.startSession ses codec h).2.1.presentation_timestamp_offset_
      = s.presentation_timestamp_offset_ ∧
    (s.startSession ses codec h).2.2.frame_number = h.frame_number := by
  have hb := packets_calls ses.before
    (s.emit (Effect.CreateDisplay (decide (ses.api_level < 31))))
  simp only [DisplayStreamer.startSession]
  split_ifs <;> (try split) <;> simp [hb.1, hb.2, packets_emit, packets, offset_emit]

theorem endSession_kept (s : DisplayStreamer) (ses : Session) (codec : Nat) :
    packets (s.endSession ses codec).log = packets s.log ∧
    (s.endSession ses codec).presentation_timestamp_offset_
      = s.presentation_timestamp_offset_ := by
  have ha := packets_calls ses.after s
  simp [DisplayStreamer.endSession, packets_emit, packets, offset_emit, packets_StopCodec,
    offset_StopCodec, ha.1, ha.2]

theorem runLoop_kept
    (I : List Packet → Int → Int → Prop)
    (hI : KeptByWrite I) (sizeof_header : Nat) (sessions : List Session) :
    ∀ (stopped : Bool) (codec : Option Nat) (s : DisplayStreamer) (h : VideoPacketHeader),
      I (packets s.log) s.presentation_timestamp_offset_ h.frame_number →
      ∃ frame_number,
        I (packets (DisplayStreamer.runLoop sizeof_header sessions stopped codec s h).streamer.log)
          (DisplayStreamer.runLoop sizeof_header sessions stopped codec s
            h).streamer.presentation_timestamp_offset_ frame_number := by
  induction sessions with
  | nil =>
    intro stopped codec s h h0
    cases stopped
    · exact ⟨_, h0⟩
    · refine ⟨h.frame_number, ?_⟩
      simpa [DisplayStreamer.runLoop, DisplayStreamer.finishRun, packets_emit, packets,
        offset_emit] using h0
  | cons ses rest ih =>
    intro stopped codec s h h0
    cases stopped with
    | true =>
      refine ⟨h.frame_number, ?_⟩
      simpa [DisplayStreamer.runLoop, DisplayStreamer.finishRun, packets_emit, packets,
        offset_emit] using h0
    | false =>
      simp only [DisplayStreamer.runLoop]
      split
      · exact ⟨_, h0⟩
      · rename_i codec1 _
        have hs := startSession_kept s ses codec1 h
        cases hst : s.startSession ses codec1 h with
        | mk ok rest2 =>
          obtain ⟨s1, h1⟩ := rest2
          rw [hst] at hs
          simp only [] at hs
          have h1i : I (packets s1.log) s1.presentation_timestamp_offset_ h1.frame_number := by
            rw [hs.1, hs.2.1, hs.2.2]; exact h0
          cases ok with
          | false => exact ⟨_, h1i⟩
          | true =>
            simp only [DisplayStreamer.ProcessFramesUntilStopped]
            have hk := frameLoop_kept I hI sizeof_header ses.frames false s1 h1 h1i
            generalize DisplayStreamer.frameLoop sizeof_header ses.frames false s1 h1 = r at hk
            obtain ⟨hk1, fn, hk2⟩ := hk
            cases ho : r.outcome with
            | fatal => exact ⟨fn, hk2⟩
            | running => exact ⟨fn, hk2⟩
            | returned eos =>
              have hk3 := hk1 (by rw [ho]; exact fun hc => by cases hc)
              have he := endSession_kept r.streamer ses codec1
              have h5 : I (packets (r.streamer.endSession ses codec1).log)
                  (r.streamer.endSession ses codec1).presentation_timestamp_offset_
                  r.packet_header.frame_number := by
                rw [he.1, he.2]; exact hk3
              simp only []
              split_ifs with hend
              · refine ⟨r.packet_header.frame_number, ?_⟩
                simpa [DisplayStreamer.finishRun, packets_emit, packets, offset_emit] using h5
              · exact ih _ _ _ _ h5

theorem Run_kept
    (I : List Packet → Int → Int → Prop)
    (hI : KeptByWrite I) (s : DisplayStreamer) (sizeof_header : Nat) (codec : Option Nat)
    (sessions : List Session)
    (h0 : I (packets s.log) s.presentation_timestamp_offset_ 1) :
    ∃ frame_number,
      I (packets (s.Run sizeof_header codec sessions).streamer.log)
        (s.Run sizeof_header codec sessions).streamer.presentation_timestamp_offset_
        frame_number := by
  cases codec with
  | none =>
    refine ⟨1, ?_⟩
    simp only [DisplayStreamer.Run]
    split_ifs <;> exact h0
  | some c =>
    simp only [DisplayStreamer.Run]
    split_ifs
    · apply runLoop_kept I hI
      simpa [packets_emit, packets, offset_emit] using h0
    · exact ⟨1, h0⟩

/-! ## Frame numbers -/

theorem wrapInt64_rebase (t : Int) : wrapInt64 (t - wrapInt64 (t - 1)) = 1 := by
  unfold wrapInt64; omega

theorem frame_numbers_kept :
    KeptByWrite (fun pk _ frame_number =>
      List.Chain' (fun a b : Packet =>
        b.header.frame_number = a.header.frame_number + if a.info.IsConfig then 1 else 0) pk ∧
      (∀ p ∈ pk.head?, p.header.frame_number = 1) ∧
      (∀ p ∈ pk.getLast?,
        frame_number = p.header.frame_number + if p.info.IsConfig then 1 else 0) ∧
      (pk = [] → frame_number = 1)) := by
  intro pk offset frame_number header info hI hfn _ _
  obtain ⟨hchain, hhead, hlast, hnil⟩ := hI
  refine ⟨?_, ?_, ?_, ?_⟩
  · apply List.Chain'.append hchain (List.chain'_singleton _)
    intro x hx y hy
    simp only [List.head?_cons, Option.mem_def, Option.some.injEq] at hy
    subst hy
    simpa [hfn] using hlast x hx
  · intro p hp
    cases pk with
    | nil =>
      simp only [List.nil_append, List.head?_cons, Option.mem_def, Option.some.injEq] at hp
      subst hp
      simpa [hfn] using hnil rfl
    | cons a rest => exact hhead p (by simpa using hp)
  · intro p hp
    simp only [List.getLast?_append, List.getLast?_singleton, Option.mem_def, Option.or_some,
      Option.some.injEq] at hp
    subst hp
    simp [hfn]
  · intro hcontra
    simp at hcontra

/-- Claim C5.  Over a whole `Run` that starts with no packet written, the packets passed to
`writev` carry frame numbers such that the first is 1, each next one equals the preceding one
plus 1 when the preceding buffer was a codec-config buffer and plus 0 otherwise, and therefore
the frame numbers never decrease. -/
theorem Run_frame_numbers (s : DisplayStreamer) (sizeof_header : Nat) (codec : Option Nat)
    (sessions : List Session) (h0 : packets s.log = []) :
    (∀ p ∈ (packets (s.Run sizeof_header codec sessions).streamer.log).head?,
      p.header.frame_number = 1) ∧
    List.Chain' (fun a b : Packet =>
        b.header.frame_number = a.header.frame_number + if a.info.IsConfig then 1 else 0)
      (packets (s.Run sizeof_header codec sessions).streamer.log) ∧
    List.Chain' (fun a b : Packet => a.header.frame_number ≤ b.header.frame_number)
      (packets (s.Run sizeof_header codec sessions).streamer.log) := by
  obtain ⟨fn, hchain, hhead, -, -⟩ :=
    Run_kept _ frame_numbers_kept s sizeof_header codec sessions
      (by rw [h0]; exact ⟨List.chain'_nil, by simp, by simp, fun _ => rfl⟩)
  refine ⟨hhead, hchain, hchain.imp ?_⟩
  intro a b hab
  rw [hab]
  split_ifs <;> omega

/-- Claim C5, at an instance: a run of two sessions, the first of which writes a config
buffer and a frame. -/
theorem Run_frame_numbers_witness :
    packets exampleStreamer.log = [] ∧
    List.Chain' (fun a b : Packet =>
        b.header.frame_number = a.header.frame_number + if a.info.IsConfig then 1 else 0)
      (packets (exampleStreamer.Run 40 (some 1)
        [exampleSession 1
           [exampleFrame 30 0 2, exampleFrame 100 1000 0,
            { exampleFrame 100 2000 0 with before := [Call.OnRotationChanged 1] }],
         exampleSession 2 [exampleFrame 30 0 2, exampleFrame 100 5000 0]]).streamer.log) :=
  ⟨by decide, (Run_frame_numbers exampleStreamer 40 (some 1) _ (by decide)).2.1⟩

/-! ## Packet size -/

theorem packet_size_kept :
    KeptByWrite (fun pk _ _ =>
      ∀ p ∈ pk, p.header.packet_size = p.info.size ∧ p.iov_len = toSizeT p.info.size) := by
  intro pk offset frame_number header info hI _ hsz _ p hp
  rcases List.mem_append.mp hp with hp | hp
  · exact hI p hp
  · simp only [List.mem_singleton] at hp
    subst hp
    exact ⟨hsz, rfl⟩

/-- Claim C8.  In every packet written during a `Run` the header field `packet_size` is the
`info.size` of the dequeued buffer and the `iov_len` of the payload element of the same
`writev` is `static_cast<size_t>(info.size)`; for every buffer whose `info.size` is a byte
count, that is a non-negative `int32_t`, the two are equal, both being `info.size`. -/
theorem Run_packet_size (s : DisplayStreamer) (sizeof_header : Nat) (codec : Option Nat)
    (sessions : List Session) (h0 : packets s.log = []) :
    ∀ p ∈ packets (s.Run sizeof_header codec sessions).streamer.log,
      p.header.packet_size = p.info.size ∧ p.iov_len = toSizeT p.info.size ∧
      (0 ≤ p.info.size → IsInt32 p.info.size →
        p.header.packet_size = p.iov_len ∧ p.iov_len = p.info.size) := by
  obtain ⟨_, hk⟩ := Run_kept _ packet_size_kept s sizeof_header codec sessions
    (by rw [h0]; intro p hp; cases hp)
  intro p hp
  obtain ⟨h1, h2⟩ := hk p hp
  refine ⟨h1, h2, ?_⟩
  intro hpos hint
  rw [h1, h2]
  unfold IsInt32 INT32_MAX at hint
  unfold toSizeT
  omega

/-- Claim C8, at an instance: a run that writes a config buffer of 30 bytes and a frame of
100 bytes; in both packets `packet_size` and `iov_len` are the size of the buffer. -/
theorem Run_packet_size_witness :
    packets exampleStreamer.log = [] ∧
    (packets (exampleStreamer.Run 40 (some 1)
        [exampleSession 1 [exampleFrame 30 0 2, exampleFrame 100 1000 0]]).streamer.log).map
      (fun p => (p.info.size, p.header.packet_size, p.iov_len))
      = [(30, 30, 30), (100, 100, 100)] ∧
    ∀ p ∈ packets (exampleStreamer.Run 40 (some 1)
        [exampleSession 1 [exampleFrame 30 0 2, exampleFrame 100 1000 0]]).streamer.log,
      p.header.packet_size = p.info.size ∧ p.iov_len = toSizeT p.info.size ∧
      (0 ≤ p.info.size → IsInt32 p.info.size →
        p.header.packet_size = p.iov_len ∧ p.iov_len = p.info.size) :=
  ⟨by decide, by decide, Run_packet_size exampleStreamer 40 (some 1) _ (by decide)⟩

/-! ## Presentation timestamps -/

theorem first_timestamp_kept :
    KeptByWrite (fun pk offset _ =>
      (∀ p, pk.find? (fun p => !p.info.IsConfig) = some p →
        p.header.presentation_timestamp_us = 1) ∧
      ((∀ p ∈ pk, p.info.IsConfig = true) → offset = 0)) := by
  intro pk offset frame_number header info hI _ _ hpts
  obtain ⟨hfirst, hzero⟩ := hI
  by_cases hc : info.IsConfig = true
  · refine ⟨?_, ?_⟩
    · intro p hp
      apply hfirst p
      simpa [List.find?_append, List.find?, hc] using hp
    · intro hall
      simp only [nextOffset, hc, if_true]
      exact hzero (fun p hp => hall p (List.mem_append_left _ hp))
  · refine ⟨?_, ?_⟩
    · intro p hp
      cases hf : pk.find? (fun p => !p.info.IsConfig) with
      | some q =>
        have : q = p := by simpa [List.find?_append, hf] using hp
        subst this
        exact hfirst q hf
      | none =>
        have hall : ∀ q ∈ pk, q.info.IsConfig = true := by
          intro q hq
          have := List.find?_eq_none.mp hf q hq
          simpa using this
        have hoff := hzero hall
        have hp2 : ({ header := header, info := info, iov_len := toSizeT info.size } : Packet)
            = p := by
          simpa [List.find?_append, hf, List.find?, hc] using hp
        subst hp2
        simp only [hpts, hc, nextOffset, hoff]
        simp [wrapInt64_rebase]
    · intro hall
      exact absurd (hall _ (List.mem_append_right _ (List.mem_singleton.mpr rfl))) hc

/-- Claim C2, as stated, fails: in a run whose first session is ended by a change of the
maximal resolution, the first buffer of the session created after the restart, which is not a
config buffer and has `presentationTimeUs = 5000`, is written with
`presentation_timestamp_us = 4001`. -/
theorem Run_restart_timestamp_not_rebased :
    sessionTrace (exampleStreamer.Run 40 (some 1)
      [exampleSession 1
         [exampleFrame 100 1000 0,
          { exampleFrame 100 2000 0 with
            before := [Call.SetMaxVideoResolution { width := 720, height := 1280 }] }],
       exampleSession 2 [exampleFrame 100 5000 0]]).streamer.log
    = [Sum.inl 1, Sum.inr (false, 1), Sum.inl 2, Sum.inr (false, 4001)] := by
  decide

/-- Claim C2, amended.  In a `Run` that starts with `presentation_timestamp_offset_ = 0`, as
the constructor leaves it, and with no packet written, the first buffer that is not a config
buffer and is written, in whichever session, is written with `presentation_timestamp_us = 1`.
A later session rebases again only while the offset is still 0: a buffer that is not a config
buffer is written with timestamp 1 when it is processed with offset 0, and with
`presentationTimeUs - presentation_timestamp_offset_`, wrapped to `int64_t`, when the offset
is not 0, which leaves the offset as it is; and the statements of `Run` that end a session
and start the next one leave the offset as it is. -/
theorem Run_first_frame_timestamp (s : DisplayStreamer) (sizeof_header : Nat)
    (codec : Option Nat) (sessions : List Session) (h0 : packets s.log = [])
    (hoff : s.presentation_timestamp_offset_ = 0) :
    (∀ p, (packets (s.Run sizeof_header codec sessions).streamer.log).find?
        (fun p => !p.info.IsConfig) = some p →
      p.header.presentation_timestamp_us = 1) ∧
    (∀ (t : DisplayStreamer) (f : FrameStep) (h : VideoPacketHeader),
      f.dequeue.info.IsConfig = false →
      ∃ header : VideoPacketHeader,
        packets (t.writeFrame sizeof_header f h).2.1.log
          = packets t.log ++ [{ header := header, info := f.dequeue.info,
                                iov_len := toSizeT f.dequeue.info.size }] ∧
        (t.presentation_timestamp_offset_ = 0 → header.presentation_timestamp_us = 1) ∧
        (t.presentation_timestamp_offset_ ≠ 0 →
          header.presentation_timestamp_us
            = wrapInt64 (f.dequeue.info.presentationTimeUs - t.presentation_timestamp_offset_) ∧
          (t.writeFrame sizeof_header f h).2.1.presentation_timestamp_offset_
            = t.presentation_timestamp_offset_)) ∧
    (∀ (t : DisplayStreamer) (ses : Session) (codec : Nat) (h : VideoPacketHeader),
      (t.endSession ses codec).presentation_timestamp_offset_
        = t.presentation_timestamp_offset_ ∧
      (t.startSession ses codec h).2.1.presentation_timestamp_offset_
        = t.presentation_timestamp_offset_) := by
  refine ⟨?_, ?_, ?_⟩
  · obtain ⟨_, hk, _⟩ := Run_kept _ first_timestamp_kept s sizeof_header codec sessions
      (by rw [h0]; exact ⟨fun p hp => by simp at hp, fun _ => hoff⟩)
    exact hk
  · intro t f h hc
    obtain ⟨header, hp, -, -, hpts, hnew, -⟩ := writeFrame_spec t sizeof_header f h
    refine ⟨header, hp, ?_, ?_⟩
    · intro h0'
      rw [hpts]
      simp only [hc, Bool.false_eq_true, if_false, nextOffset, h0', if_true]
      exact wrapInt64_rebase _
    · intro hne
      constructor
      · rw [hpts]
        simp only [hc, Bool.false_eq_true, if_false, nextOffset, hne]
      · rw [hnew]
        simp only [nextOffset, hc, Bool.false_eq_true, if_false, hne]
  · intro t ses codec h
    exact ⟨(endSession_kept t ses codec).2, (startSession_kept t ses codec h).2.1⟩

/-- Claim C2, amended, at an instance: the run of two sessions above, and its second session,
in which a frame with `presentationTimeUs = 5000` is processed with the offset 999. -/
theorem Run_first_frame_timestamp_witness :
    packets exampleStreamer.log = [] ∧ exampleStreamer.presentation_timestamp_offset_ = 0 ∧
    (∀ p, (packets (exampleStreamer.Run 40 (some 1)
        [exampleSession 1
           [exampleFrame 100 1000 0,
            { exampleFrame 100 2000 0 with
              before := [Call.SetMaxVideoResolution { width := 720, height := 1280 }] }],
         exampleSession 2 [exampleFrame 100 5000 0]]).streamer.log).find?
        (fun p => !p.info.IsConfig) = some p →
      p.header.presentation_timestamp_us = 1) ∧
    (exampleFrame 100 5000 0).dequeue.info.IsConfig = false ∧
    DisplayStreamer.presentation_timestamp_offset_
      { exampleStreamer with presentation_timestamp_offset_ := 999 } ≠ 0 ∧
    ∃ header : VideoPacketHeader,
      packets (DisplayStreamer.writeFrame
          { exampleStreamer with presentation_timestamp_offset_ := 999 } 40
          (exampleFrame 100 5000 0) (exampleHeader 0 0)).2.1.log
        = packets (DisplayStreamer.log
            { exampleStreamer with presentation_timestamp_offset_ := 999 })
          ++ [{ header := header, info := (exampleFrame 100 5000 0).dequeue.info,
                iov_len := toSizeT (exampleFrame 100 5000 0).dequeue.info.size }] ∧
      (DisplayStreamer.presentation_timestamp_offset_
          { exampleStreamer with presentation_timestamp_offset_ := 999 } = 0 →
        header.presentation_timestamp_us = 1) ∧
      (DisplayStreamer.presentation_timestamp_offset_
          { exampleStreamer with presentation_timestamp_offset_ := 999 } ≠ 0 →
        header.presentation_timestamp_us
          = wrapInt64 ((exampleFrame 100 5000 0).dequeue.info.presentationTimeUs
              - DisplayStreamer.presentation_timestamp_offset_
                  { exampleStreamer with presentation_timestamp_offset_ := 999 }) ∧
        (DisplayStreamer.writeFrame
            { exampleStreamer with presentation_timestamp_offset_ := 999 } 40
            (exampleFrame 100 5000 0) (exampleHeader 0 0)).2.1.presentation_timestamp_offset_
          = DisplayStreamer.presentation_timestamp_offset_
              { exampleStreamer with presentation_timestamp_offset_ := 999 }) :=
  ⟨by decide, by decide,
    (Run_first_frame_timestamp exampleStreamer 40 (some 1) _ (by decide) (by decide)).1,
    by decide, by decide,
    (Run_first_frame_timestamp exampleStreamer 40 (some 1) [] (by decide) (by decide)).2.1
      { exampleStreamer with presentation_timestamp_offset_ := 999 }
      (exampleFrame 100 5000 0) (exampleHeader 0 0) (by decide)⟩

/-! ## Dequeued buffers -/

/-- Claim C4, as stated, fails: a buffer is dequeued, another thread clears `running_codec_`
before the second `IsCodecRunning`, and `ProcessFramesUntilStopped` returns `false` without
passing the buffer to `writev`. -/
theorem ProcessFramesUntilStopped_drops_buffer :
    CodecOutputBuffer.Deque 0 (exampleFrame 100 1000 0).dequeue = some (true, 0) ∧
    ({ exampleStreamer with running_codec_ := some 1 }.ProcessFramesUntilStopped 40
        (exampleHeader 0 0)
        [{ exampleFrame 100 1000 0 with
           between := [Call.SetMaxVideoResolution { width := 720, height := 1280 }] }]).outcome
      = Outcome.returned false ∧
    ({ exampleStreamer with running_codec_ := some 1 }.ProcessFramesUntilStopped 40
        (exampleHeader 0 0)
        [{ exampleFrame 100 1000 0 with
           between := [Call.SetMaxVideoResolution { width := 720, height := 1280 }] }]).streamer.log
      = [Effect.AMediaCodec_stop 1] := by
  decide

/-- Claim C4, amended.  In an iteration of the frame loop that starts with the codec running
and in which `Deque` returns `true`: if the codec is still running at the second
`IsCodecRunning`, exactly one effect is added by the rest of the iteration, a single `writev`
of the header followed by the payload of `info.size` bytes; if the codec has been stopped in
the meantime, the function returns `false` and nothing is written for the buffer. -/
theorem frameLoop_dequeued_buffer (sizeof_header : Nat) (f : FrameStep) (rest : List FrameStep)
    (s : DisplayStreamer) (h : VideoPacketHeader) (count : Int)
    (hrun : (s.calls f.before).IsCodecRunning = true)
    (hdeq : CodecOutputBuffer.Deque (s.calls f.before).consequent_error_count f.dequeue
      = some (true, count)) :
    ((DisplayStreamer.calls { s.calls f.before with consequent_error_count := count }
        f.between).IsCodecRunning = true →
      (∃ header : VideoPacketHeader,
        ((DisplayStreamer.calls { s.calls f.before with consequent_error_count := count }
          f.between).writeFrame sizeof_header f h).2.1.log
        = (DisplayStreamer.calls { s.calls f.before with consequent_error_count := count }
            f.between).log
          ++ [Effect.writev header f.dequeue.info (toSizeT f.dequeue.info.size)]) ∧
      DisplayStreamer.frameLoop sizeof_header (f :: rest) false s h
        = (match (DisplayStreamer.calls { s.calls f.before with consequent_error_count := count }
              f.between).writeFrame sizeof_header f h with
           | (none, s2, h2) => { outcome := Outcome.fatal, streamer := s2, packet_header := h2 }
           | (some end_of_stream, s2, h2) =>
             DisplayStreamer.frameLoop sizeof_header rest end_of_stream s2 h2)) ∧
    ((DisplayStreamer.calls { s.calls f.before with consequent_error_count := count }
        f.between).IsCodecRunning = false →
      DisplayStreamer.frameLoop sizeof_header (f :: rest) false s h
        = { outcome := Outcome.returned false,
            streamer := DisplayStreamer.calls
              { s.calls f.before with consequent_error_count := count } f.between,
            packet_header := h } ∧
      packets (DisplayStreamer.frameLoop sizeof_header (f :: rest) false s h).streamer.log
        = packets s.log) := by
  constructor
  · intro hrun2
    constructor
    · simp only [DisplayStreamer.writeFrame, DisplayStreamer.emit]
      split_ifs <;> exact ⟨_, rfl⟩
    · simp [DisplayStreamer.frameLoop, hrun, hdeq, hrun2]
  · intro hstop
    have hloop : DisplayStreamer.frameLoop sizeof_header (f :: rest) false s h
        = { outcome := Outcome.returned false,
            streamer := DisplayStreamer.calls
              { s.calls f.before with consequent_error_count := count } f.between,
            packet_header := h } := by
      simp [DisplayStreamer.frameLoop, hrun, hdeq, hstop]
    refine ⟨hloop, ?_⟩
    rw [hloop]
    have h1 := packets_calls f.between { s.calls f.before with consequent_error_count := count }
    have h2 := packets_calls f.before s
    exact h1.1.trans h2.1

/-- Claim C4, amended, at an instance: a buffer of 100 bytes, dequeued and written while the
codec keeps running. -/
theorem frameLoop_dequeued_buffer_witness :
    ({ exampleStreamer with running_codec_ := some 1 }.calls
      (exampleFrame 100 1000 0).before).IsCodecRunning = true ∧
    CodecOutputBuffer.Deque ({ exampleStreamer with running_codec_ := some 1 }.calls
      (exampleFrame 100 1000 0).before).consequent_error_count (exampleFrame 100 1000 0).dequeue
      = some (true, 0) ∧
    ∃ header : VideoPacketHeader,
      ((DisplayStreamer.calls
          { { exampleStreamer with running_codec_ := some 1 }.calls
              (exampleFrame 100 1000 0).before with consequent_error_count := 0 }
          (exampleFrame 100 1000 0).between).writeFrame 40 (exampleFrame 100 1000 0)
          (exampleHeader 0 0)).2.1.log
      = (DisplayStreamer.calls
          { { exampleStreamer with running_codec_ := some 1 }.calls
              (exampleFrame 100 1000 0).before with consequent_error_count := 0 }
          (exampleFrame 100 1000 0).between).log
        ++ [Effect.writev header (exampleFrame 100 1000 0).dequeue.info
              (toSizeT (exampleFrame 100 1000 0).dequeue.info.size)] :=
  ⟨by decide, by decide,
    ((frameLoop_dequeued_buffer 40 (exampleFrame 100 1000 0) []
      { exampleStreamer with running_codec_ := some 1 } (exampleHeader 0 0) 0
      (by decide) (by decide)).1 (by decide)).1⟩

/-! ## Shutdown -/

/-- Claim C3 fails on the code.  `Shutdown` leaves `stopped_` as it is, and in the run below
`Shutdown` is called while the frame loop of the first session is about to test
`IsCodecRunning`: `ProcessFramesUntilStopped` returns `false`, `stopped_` is still `false`, and
`Run` creates a second virtual display and starts a second encoder session, which lasts until
a write on the closed socket fails. -/
theorem Run_after_Shutdown_starts_session :
    (∀ s : DisplayStreamer, s.Shutdown.stopped_ = s.stopped_) ∧
    afterClose (exampleStreamer.Run 40 (some 1)
      [exampleSession 1
         [exampleFrame 100 1000 0,
          { exampleFrame 100 2000 0 with before := [Call.Shutdown] }],
       exampleSession 2
         [{ exampleFrame 100 5000 0 with written := -1, errno := EBADF }]]).streamer.log
    = [Effect.close 5, Effect.StopCodec, Effect.AMediaCodec_stop 1, Effect.StopCodec,
       Effect.DestroyDisplay, Effect.AMediaCodec_delete 1,
       Effect.CreateDisplay false,
       Effect.AMediaCodec_configure { width := 1080, height := 1920 },
       Effect.ConfigureDisplay 0 { width := 1080, height := 1920 },
       Effect.AMediaCodec_start 2,
       Effect.writev (exampleHeader 4001 100) (exampleFrame 100 5000 0).dequeue.info 100,
       Effect.StopCodec, Effect.AMediaCodec_stop 2, Effect.DestroyDisplay,
       Effect.AMediaCodec_delete 2, Effect.AgentShutdown] := by
  refine ⟨?_, by decide⟩
  intro s
  cases hc : s.running_codec_ <;>
    simp only [DisplayStreamer.Shutdown, DisplayStreamer.StopCodec,
      DisplayStreamer.StopCodecUnlocked, DisplayStreamer.emit, hc] <;>
    split_ifs <;> rfl

/-! ## Rounding -/

theorem bitLengthAux_spec (fuel : Nat) :
    ∀ n : Nat, n ≤ fuel → 0 < n →
      2 ^ (bitLengthAux fuel n - 1) ≤ n ∧ n < 2 ^ bitLengthAux fuel n ∧
        1 ≤ bitLengthAux fuel n := by
  induction fuel with
  | zero => intro n h1 h2; omega
  | succ fuel ih =>
    intro n hle hpos
    have hn : n ≠ 0 := by omega
    simp only [bitLengthAux, hn, if_false]
    by_cases h2 : n / 2 = 0
    · have h1 : n = 1 := by omega
      subst h1
      cases fuel <;> simp [bitLengthAux]
    · obtain ⟨ih1, ih2, ih3⟩ := ih (n / 2) (by omega) (by omega)
      refine ⟨?_, ?_, by omega⟩
      · have e : bitLengthAux fuel (n / 2) + 1 - 1 = (bitLengthAux fuel (n / 2) - 1) + 1 := by
          omega
        rw [e, pow_succ]
        omega
      · rw [pow_succ]
        omega

theorem bitLength_spec (n : Nat) (h : 0 < n) :
    2 ^ (bitLength n - 1) ≤ n ∧ n < 2 ^ bitLength n ∧ 1 ≤ bitLength n :=
  bitLengthAux_spec n n (le_refl n) h

theorem roundShift_ge (p q : Nat) (hp : 0 < p) (hq : 0 < q) :
    q * 2 ^ (-(roundShift p q)).toNat * 2 ^ 52 ≤ p * 2 ^ (roundShift p q).toNat := by
  obtain ⟨hp1, -, hp3⟩ := bitLength_spec p hp
  obtain ⟨-, hq2, hq3⟩ := bitLength_spec q hq
  unfold roundShift
  generalize bitLength p = lp at *
  generalize bitLength q = lq at *
  simp only []
  by_cases hA : lp ≤ 53 + lq
  · obtain ⟨a, ha⟩ : ∃ a : Nat, a = 53 + lq - lp := ⟨_, rfl⟩
    have e1 : ((53 : Int) + (lq : Int) - (lp : Int)).toNat = a := by omega
    have e2 : (-((53 : Int) + (lq : Int) - (lp : Int))).toNat = 0 := by omega
    have hbig : q * 2 ^ 52 ≤ p * 2 ^ a := by
      have h1 : 2 ^ (lp - 1) * 2 ^ a = 2 ^ 52 * 2 ^ lq := by
        rw [← pow_add, ← pow_add]; congr 1; omega
      calc q * 2 ^ 52 ≤ 2 ^ lq * 2 ^ 52 := Nat.mul_le_mul_right _ (le_of_lt hq2)
        _ = 2 ^ (lp - 1) * 2 ^ a := by rw [h1, mul_comm]
        _ ≤ p * 2 ^ a := Nat.mul_le_mul_right _ hp1
    rw [e1, e2]
    split_ifs with hc
    · rcases Nat.eq_zero_or_pos a with h0 | h0
      · have e3 : ((53 : Int) + (lq : Int) - (lp : Int) - 1).toNat = 0 := by omega
        have e4 : (-((53 : Int) + (lq : Int) - (lp : Int) - 1)).toNat = 1 := by omega
        rw [e3, e4]
        rw [h0] at hc
        norm_num at hc ⊢
        omega
      · have e3 : ((53 : Int) + (lq : Int) - (lp : Int) - 1).toNat = a - 1 := by omega
        have e4 : (-((53 : Int) + (lq : Int) - (lp : Int) - 1)).toNat = 0 := by omega
        rw [e3, e4]
        have e5 : 2 ^ a = 2 ^ (a - 1) * 2 := by
          rw [← pow_succ]; congr 1; omega
        rw [e5] at hc
        norm_num at hc ⊢
        have : p * (2 ^ (a - 1) * 2) = (p * 2 ^ (a - 1)) * 2 := by ring
        omega
    · rw [e1, e2]
      simpa using hbig
  · obtain ⟨b, hb⟩ : ∃ b : Nat, b = lp - 53 - lq := ⟨_, rfl⟩
    have e1 : ((53 : Int) + (lq : Int) - (lp : Int)).toNat = 0 := by omega
    have e2 : (-((53 : Int) + (lq : Int) - (lp : Int))).toNat = b := by omega
    rw [e1, e2]
    split_ifs with hc
    · have e3 : ((53 : Int) + (lq : Int) - (lp : Int) - 1).toNat = 0 := by omega
      have e4 : (-((53 : Int) + (lq : Int) - (lp : Int) - 1)).toNat = b + 1 := by omega
      rw [e3, e4]
      rw [pow_succ]
      norm_num at hc ⊢
      have : q * (2 ^ b * 2) * 4503599627370496 = q * 9007199254740992 * 2 ^ b := by ring
      omega
    · rw [e1, e2]
      have h1 : 2 ^ (lp - 1) = 2 ^ lq * 2 ^ b * 2 ^ 52 := by
        rw [← pow_add, ← pow_add]; congr 1; omega
      calc q * 2 ^ b * 2 ^ 52 ≤ 2 ^ lq * 2 ^ b * 2 ^ 52 :=
            Nat.mul_le_mul_right _ (Nat.mul_le_mul_right _ (le_of_lt hq2))
        _ = 2 ^ (lp - 1) := h1.symm
        _ ≤ p := hp1
        _ = p * 2 ^ 0 := by simp

theorem roundShift_neg_toNat (p q : Nat) (hp : 0 < p) (hq : 0 < q) (hlt : p < q * 2 ^ 53) :
    (-(roundShift p q)).toNat = 0 := by
  have h := roundShift_ge p q hp hq
  by_contra hne
  obtain ⟨b, hb⟩ : ∃ b : Nat, (-(roundShift p q)).toNat = b + 1 :=
    ⟨(-(roundShift p q)).toNat - 1, by omega⟩
  have hs : (roundShift p q).toNat = 0 := by omega
  rw [hb, hs] at h
  have h1 : q * 2 ^ 53 ≤ q * 2 ^ (b + 1) * 2 ^ 52 := by
    have : 2 ^ 53 ≤ 2 ^ (b + 1) * 2 ^ 52 := by
      rw [← pow_add]
      exact Nat.pow_le_pow_right (by norm_num) (by omega)
    calc q * 2 ^ 53 ≤ q * (2 ^ (b + 1) * 2 ^ 52) := Nat.mul_le_mul_left _ this
      _ = q * 2 ^ (b + 1) * 2 ^ 52 := by ring
  simp only [pow_zero, mul_one] at h
  omega

theorem roundNearestEven_spec (p q : Nat) (hp : 0 < p) (hq : 0 < q) (hlt : p < q * 2 ^ 53) :
    ∃ a m1 : Nat, roundNearestEven p q = (m1, a) ∧ q * 2 ^ 52 ≤ p * 2 ^ a ∧
      p * 2 ^ a / q ≤ m1 ∧ m1 ≤ p * 2 ^ a / q + 1 ∧
      ((p * 2 ^ a) % q = 0 → m1 = p * 2 ^ a / q) := by
  have h := roundShift_ge p q hp hq
  have h0 := roundShift_neg_toNat p q hp hq hlt
  rw [h0] at h
  simp only [pow_zero, mul_one] at h
  have hp0 : p ≠ 0 := by omega
  generalize hn : p * 2 ^ (roundShift p q).toNat = n at h
  have heq : roundNearestEven p q
      = ((if q < 2 * (n % q) ∨ (2 * (n % q) = q ∧ n / q % 2 = 1) then n / q + 1 else n / q),
         (roundShift p q).toNat) := by
    simp only [roundNearestEven, hp0, if_false, h0, pow_zero, mul_one, hn]
  refine ⟨(roundShift p q).toNat, _, heq, ?_, ?_, ?_, ?_⟩
  · rw [hn]; exact h
  · rw [hn]; split_ifs <;> omega
  · rw [hn]; split_ifs <;> omega
  · rw [hn]
    intro hr
    have : ¬ (q < 2 * (n % q) ∨ 2 * (n % q) = q ∧ n / q % 2 = 1) := by omega
    simp only [this, if_false]

theorem roundNearestEven_pos (p q : Nat) (hp : 0 < p) (hq : 0 < q) (hlt : p < q * 2 ^ 53) :
    0 < (roundNearestEven p q).1 := by
  obtain ⟨a, m1, heq, hge, hlo, -, -⟩ := roundNearestEven_spec p q hp hq hlt
  rw [heq]
  have : 2 ^ 52 ≤ p * 2 ^ a / q := by
    rw [Nat.le_div_iff_mul_le hq]
    calc 2 ^ 52 * q = q * 2 ^ 52 := mul_comm _ _
      _ ≤ p * 2 ^ a := hge
  have h2 : 0 < 2 ^ 52 := by norm_num
  show 0 < m1
  omega

theorem roundNearestEven_ge_one (p q : Nat) (hq : 0 < q) (hge : q ≤ p) (hlt : p < q * 2 ^ 53) :
    2 ^ (roundNearestEven p q).2 ≤ (roundNearestEven p q).1 := by
  obtain ⟨a, m1, heq, -, hlo, -, -⟩ := roundNearestEven_spec p q (by omega) hq hlt
  rw [heq]
  have : 2 ^ a ≤ p * 2 ^ a / q := by
    rw [Nat.le_div_iff_mul_le hq]
    calc 2 ^ a * q = q * 2 ^ a := mul_comm _ _
      _ ≤ p * 2 ^ a := Nat.mul_le_mul_right _ hge
  exact le_trans this hlo

theorem roundNearestEven_int (w : Nat) (hw : 0 < w) (hlt : w < 2 ^ 53) :
    ∃ a : Nat, roundNearestEven w 1 = (w * 2 ^ a, a) := by
  obtain ⟨a, m1, heq, -, -, -, hex⟩ := roundNearestEven_spec w 1 hw (by norm_num) (by omega)
  refine ⟨a, ?_⟩
  rw [heq, hex (Nat.mod_one _), Nat.div_one]

theorem roundNearestEven_le (p q N E : Nat) (hp : 0 < p) (hq : 0 < q) (hlt : p < q * 2 ^ 53)
    (hN : N ≤ 2 ^ 53) (hx : p * 2 ^ E ≤ N * q) :
    (roundNearestEven p q).1 * 2 ^ E ≤ N * 2 ^ (roundNearestEven p q).2 := by
  obtain ⟨a, m1, heq, hge, hlo, hhi, hex⟩ := roundNearestEven_spec p q hp hq hlt
  rw [heq]
  show m1 * 2 ^ E ≤ N * 2 ^ a
  generalize hn : p * 2 ^ a = n at hge hlo hhi hex
  have hdm := Nat.div_add_mod n q
  have hr := Nat.mod_lt n hq
  by_cases hEa : E ≤ a
  · obtain ⟨t, ht⟩ : ∃ t, a = E + t := ⟨a - E, by omega⟩
    subst ht
    have hK : n ≤ (N * 2 ^ t) * q := by
      calc n = p * 2 ^ (E + t) := hn.symm
        _ = (p * 2 ^ E) * 2 ^ t := by rw [pow_add]; ring
        _ ≤ (N * q) * 2 ^ t := Nat.mul_le_mul_right _ hx
        _ = (N * 2 ^ t) * q := by ring
    have hm1 : m1 ≤ N * 2 ^ t := by
      by_cases hr0 : n % q = 0
      · rw [hex hr0]
        exact Nat.div_le_of_le_mul (by rw [mul_comm]; exact hK)
      · have hlt2 : n / q < N * 2 ^ t := by
          rw [Nat.div_lt_iff_lt_mul hq]
          rcases Nat.lt_or_ge n (N * 2 ^ t * q) with h | h
          · exact h
          · have e : n = N * 2 ^ t * q := le_antisymm hK h
            rw [e, Nat.mul_mod_left] at hr0
            exact absurd rfl hr0
        omega
    calc m1 * 2 ^ E ≤ (N * 2 ^ t) * 2 ^ E := Nat.mul_le_mul_right _ hm1
      _ = N * 2 ^ (E + t) := by rw [pow_add]; ring
  · obtain ⟨t, ht⟩ : ∃ t, E = a + (t + 1) := ⟨E - a - 1, by omega⟩
    subst ht
    have h1 : n * 2 ^ (t + 1) ≤ N * q := by
      calc n * 2 ^ (t + 1) = p * 2 ^ (a + (t + 1)) := by rw [← hn, pow_add]; ring
        _ ≤ N * q := hx
    have h2 : n * 2 ≤ n * 2 ^ (t + 1) := by
      apply Nat.mul_le_mul_left
      calc 2 = 2 ^ 1 := by norm_num
        _ ≤ 2 ^ (t + 1) := Nat.pow_le_pow_right (by norm_num) (by omega)
    have h3 : N * q ≤ 2 ^ 53 * q := Nat.mul_le_mul_right _ hN
    have h4 : n = q * 2 ^ 52 := by
      have : (2 : Nat) ^ 53 * q = (q * 2 ^ 52) * 2 := by ring
      omega
    have hr0 : n % q = 0 := by rw [h4]; exact Nat.mul_mod_right _ _
    have hm : m1 = 2 ^ 52 := by
      rw [hex hr0, h4, Nat.mul_div_cancel_left _ hq]
    have h5 : 2 ^ 52 * 2 ^ (t + 1) ≤ N := by
      have : (2 ^ 52 * 2 ^ (t + 1)) * q ≤ N * q := by
        calc (2 ^ 52 * 2 ^ (t + 1)) * q = n * 2 ^ (t + 1) := by rw [h4]; ring
          _ ≤ N * q := h1
      exact Nat.le_of_mul_le_mul_right this hq
    calc m1 * 2 ^ (a + (t + 1)) = (2 ^ 52 * 2 ^ (t + 1)) * 2 ^ a := by
          rw [hm, pow_add]; ring
      _ ≤ N * 2 ^ a := Nat.mul_le_mul_right _ h5

/-! ## Rounding up to a multiple of 8 -/

theorem land_mask (u : Nat) (hu : u < 4294967296) : u &&& 4294967288 = 8 * (u / 8) := by
  apply Nat.eq_of_testBit_eq
  intro i
  have e1 : (4294967288 : Nat) = 2 ^ 3 * (2 ^ 29 - 1) := by norm_num
  have e2 : (8 : Nat) = 2 ^ 3 := by norm_num
  rw [Nat.testBit_and, e1, e2, Nat.testBit_mul_pow_two, Nat.testBit_mul_pow_two,
    Nat.testBit_two_pow_sub_one, ← Nat.shiftRight_eq_div_pow, Nat.testBit_shiftRight]
  by_cases h3 : 3 ≤ i
  · by_cases h32 : i < 32
    · have : i - 3 < 29 := by omega
      have e : 3 + (i - 3) = i := by omega
      simp [h3, this, e]
    · have hb : u.testBit i = false := by
        apply Nat.testBit_lt_two_pow
        calc u < 2 ^ 32 := by simpa using hu
          _ ≤ 2 ^ i := Nat.pow_le_pow_right (by norm_num) (by omega)
      have e : 3 + (i - 3) = i := by omega
      simp [hb, e]
  · simp [h3]

theorem RoundUpToMultipleOf8_dvd (v : Int) : 8 ∣ RoundUpToMultipleOf8 v := by
  unfold RoundUpToMultipleOf8 toUInt32 ofUInt32
  have hu : ((v + 7) % 4294967296).toNat < 4294967296 := by omega
  rw [land_mask _ hu]
  split_ifs <;> omega

theorem RoundUpToMultipleOf8_eq (v : Int) (h1 : INT32_MIN ≤ v) (h2 : v ≤ INT32_MAX - 7) :
    RoundUpToMultipleOf8 v = 8 * ((v + 7) / 8) := by
  unfold INT32_MIN at h1
  unfold INT32_MAX at h2
  unfold RoundUpToMultipleOf8 toUInt32 ofUInt32
  have hu : ((v + 7) % 4294967296).toNat < 4294967296 := by omega
  rw [land_mask _ hu]
  split_ifs <;> omega

/-! ## The scale factor and the scaled dimensions -/

theorem lround_fin (n e : Nat) (h : (2 * n + 2 ^ e) / 2 ^ (e + 1) ≤ 2147483647) :
    (F64.fin (n : Int) e).lround = some (((2 * n + 2 ^ e) / 2 ^ (e + 1) : Nat) : Int) := by
  have hn : ¬ ((n : Int) < 0) := by omega
  simp only [F64.lround, hn, if_false, Int.natAbs_ofNat, INT32_MIN, INT32_MAX]
  generalize (2 * n + 2 ^ e) / 2 ^ (e + 1) = v at h ⊢
  rw [if_pos]
  constructor <;> omega

theorem mulInt_fin (W n e : Nat) :
    F64.mulInt (W : Int) (F64.fin (n : Int) e)
      = F64.fin ((roundNearestEven (W * n) (2 ^ e)).1 : Int)
          (roundNearestEven (W * n) (2 ^ e)).2 := by
  have h1 : ¬ ((W : Int) * (n : Int) < 0) := not_lt.mpr (by positivity)
  have h2 : ((W : Int) * (n : Int)).natAbs = W * n := by
    rw [← Nat.cast_mul, Int.natAbs_ofNat]
  simp only [F64.mulInt, F64.ofRatio, h1, h2, decide_False, Bool.false_eq_true, if_false]

theorem divInt_pos (M W : Nat) (hW : 0 < W) :
    F64.divInt (M : Int) (W : Int)
      = F64.fin ((roundNearestEven M W).1 : Int) (roundNearestEven M W).2 := by
  have h0 : ¬ ((W : Int) = 0) := by omega
  have h1 : ¬ ((W : Int) < 0) := by omega
  have h2 : ¬ ((M : Int) < 0) := by omega
  simp [F64.divInt, F64.ofRatio, h0, h1, h2]

/-- The scaled dimension: for a scale `n / 2 ^ e` in `(0, 1]` with `W * (n / 2 ^ e) ≤ B + 1/4`,
`lround (W * scale)` is defined and is at most `B` and at most `W`. -/
theorem mulInt_lround_le (W n e B : Nat) (hW : 0 < W) (hW2 : W ≤ 2147483647) (hn : 0 < n)
    (h1 : n ≤ 2 ^ e) (hB : B ≤ 2147483648) (hle : W * n * 2 ^ 2 ≤ (4 * B + 1) * 2 ^ e) :
    ∃ v : Nat, (F64.mulInt (W : Int) (F64.fin (n : Int) e)).lround = some (v : Int) ∧
      v ≤ B ∧ v ≤ W := by
  have hp : 0 < W * n := Nat.mul_pos hW hn
  have hq : 0 < 2 ^ e := by positivity
  have hlt : W * n < 2 ^ e * 2 ^ 53 := by
    calc W * n ≤ W * 2 ^ e := Nat.mul_le_mul_left _ h1
      _ < 2 ^ 53 * 2 ^ e := Nat.mul_lt_mul_of_pos_right (by omega) hq
      _ = 2 ^ e * 2 ^ 53 := mul_comm _ _
  have hu1 := roundNearestEven_le (W * n) (2 ^ e) (4 * B + 1) 2 hp hq hlt (by omega) hle
  have hu2 := roundNearestEven_le (W * n) (2 ^ e) W 0 hp hq hlt (by omega)
    (by simpa using Nat.mul_le_mul_left W h1)
  rw [mulInt_fin]
  generalize (roundNearestEven (W * n) (2 ^ e)).1 = num at hu1 hu2
  generalize (roundNearestEven (W * n) (2 ^ e)).2 = ex at hu1 hu2
  have hX : 0 < 2 ^ ex := by positivity
  have e1 : 2 ^ (ex + 1) = 2 * 2 ^ ex := by rw [pow_succ]; ring
  have e2 : (4 * B + 1) * 2 ^ ex = 4 * (B * 2 ^ ex) + 2 ^ ex := by ring
  have e3 : (B + 1) * (2 * 2 ^ ex) = 2 * (B * 2 ^ ex) + 2 * 2 ^ ex := by ring
  have e4 : (W + 1) * (2 * 2 ^ ex) = 2 * (W * 2 ^ ex) + 2 * 2 ^ ex := by ring
  have hvB : (2 * num + 2 ^ ex) / 2 ^ (ex + 1) ≤ B := by
    apply Nat.le_of_lt_succ
    rw [Nat.div_lt_iff_lt_mul (by positivity), e1, e3]
    norm_num at hu1
    omega
  have hvW : (2 * num + 2 ^ ex) / 2 ^ (ex + 1) ≤ W := by
    apply Nat.le_of_lt_succ
    rw [Nat.div_lt_iff_lt_mul (by positivity), e1, e4]
    norm_num at hu2
    omega
  exact ⟨_, lround_fin num ex (by omega), hvB, hvW⟩

theorem videoScale_pos (W H MW MH : Nat) (hW : 0 < W) (hH : 0 < H) (hMW : 0 < MW)
    (hMH : 0 < MH) (hbw : MW < W * 2 ^ 53) (hbh : MH < H * 2 ^ 53) :
    ∃ n e : Nat,
      videoScale { width := (W : Int), height := (H : Int) }
          { width := (MW : Int), height := (MH : Int) } = F64.fin (n : Int) e ∧
      0 < n ∧ n ≤ 2 ^ e ∧
      n * 2 ^ (roundNearestEven MW W).2 ≤ (roundNearestEven MW W).1 * 2 ^ e ∧
      n * 2 ^ (roundNearestEven MH H).2 ≤ (roundNearestEven MH H).1 * 2 ^ e ∧
      (2 ^ (roundNearestEven MW W).2 ≤ (roundNearestEven MW W).1 →
        2 ^ (roundNearestEven MH H).2 ≤ (roundNearestEven MH H).1 → n = 1 ∧ e = 0) := by
  have ha := roundNearestEven_pos MW W hMW hW hbw
  have hb := roundNearestEven_pos MH H hMH hH hbh
  simp only [videoScale, divInt_pos MW W hW, divInt_pos MH H hH]
  generalize (roundNearestEven MW W).1 = a at ha ⊢
  generalize (roundNearestEven MW W).2 = ea
  generalize (roundNearestEven MH H).1 = b at hb ⊢
  generalize (roundNearestEven MH H).2 = eb
  have hea : 0 < 2 ^ ea := by positivity
  have heb : 0 < 2 ^ eb := by positivity
  by_cases hlt : b * 2 ^ ea < a * 2 ^ eb
  · have hlt' : (b : Int) * 2 ^ ea < (a : Int) * 2 ^ eb := by exact_mod_cast hlt
    by_cases h1 : b < 2 ^ eb
    · have h1' : (b : Int) < 2 ^ eb := by exact_mod_cast h1
      have hb0 : ¬ ((b : Int) = 0) := by omega
      refine ⟨b, eb, ?_, hb, le_of_lt h1, le_of_lt hlt, le_refl _, ?_⟩
      · simp [F64.min, F64.lt, F64.ofInt, F64.isZero, hlt', h1', hb0]
      · intro _ h; omega
    · have h1' : ¬ ((b : Int) < 2 ^ eb) := by exact_mod_cast h1
      have h2 : 2 ^ eb * 2 ^ ea < a * 2 ^ eb :=
        lt_of_le_of_lt (Nat.mul_le_mul_right _ (by omega)) hlt
      have h3 : 2 ^ ea < a := by
        rw [mul_comm] at h2
        exact Nat.lt_of_mul_lt_mul_right h2
      refine ⟨1, 0, ?_, by norm_num, by norm_num, ?_, ?_, fun _ _ => ⟨rfl, rfl⟩⟩
      · simp [F64.min, F64.lt, F64.ofInt, F64.isZero, hlt', h1']
      · simpa using le_of_lt h3
      · simpa using not_lt.mp h1
  · have hlt' : ¬ ((b : Int) * 2 ^ ea < (a : Int) * 2 ^ eb) := by exact_mod_cast hlt
    by_cases h1 : a < 2 ^ ea
    · have h1' : (a : Int) < 2 ^ ea := by exact_mod_cast h1
      have ha0 : ¬ ((a : Int) = 0) := by omega
      refine ⟨a, ea, ?_, ha, le_of_lt h1, le_refl _, not_lt.mp hlt, ?_⟩
      · simp [F64.min, F64.lt, F64.ofInt, F64.isZero, hlt', h1', ha0]
      · intro h _; omega
    · have h1' : ¬ ((a : Int) < 2 ^ ea) := by exact_mod_cast h1
      have h2 : 2 ^ ea * 2 ^ eb ≤ b * 2 ^ ea :=
        le_trans (Nat.mul_le_mul_right _ (not_lt.mp h1)) (not_lt.mp hlt)
      have h3 : 2 ^ eb ≤ b := by
        rw [mul_comm] at h2
        exact Nat.le_of_mul_le_mul_right h2 hea
      refine ⟨1, 0, ?_, by norm_num, by norm_num, ?_, ?_, fun _ _ => ⟨rfl, rfl⟩⟩
      · simp [F64.min, F64.lt, F64.ofInt, F64.isZero, hlt', h1']
      · simpa using not_lt.mp h1
      · simpa using h3

/-- With a scale of at most 1 and at most the rounded quotient `M / W`, the scaled dimension
`W * scale` is at most `M + 1/4`. -/
theorem scale_mul_le (W M n e : Nat) (hW : 0 < W) (hW2 : W ≤ 2147483647) (hM : 0 < M)
    (hM2 : M ≤ 2147483647) (h1 : n ≤ 2 ^ e)
    (hle : n * 2 ^ (roundNearestEven M W).2 ≤ (roundNearestEven M W).1 * 2 ^ e) :
    W * n * 2 ^ 2 ≤ (4 * M + 1) * 2 ^ e := by
  by_cases hMW : W ≤ M
  · calc W * n * 2 ^ 2 ≤ M * 2 ^ e * 2 ^ 2 :=
          Nat.mul_le_mul_right _ (Nat.mul_le_mul hMW h1)
      _ = 4 * M * 2 ^ e := by ring
      _ ≤ (4 * M + 1) * 2 ^ e := Nat.mul_le_mul_right _ (by omega)
  · have hlt : M < W * 2 ^ 53 := by
      calc M < W := by omega
        _ = W * 1 := (mul_one W).symm
        _ ≤ W * 2 ^ 53 := Nat.mul_le_mul_left _ (by norm_num)
    obtain ⟨c, hc⟩ : ∃ c, c = (M * 2 ^ 33 + (W - 1)) / W := ⟨_, rfl⟩
    have hdm := Nat.div_add_mod (M * 2 ^ 33 + (W - 1)) W
    have hr := Nat.mod_lt (M * 2 ^ 33 + (W - 1)) hW
    rw [← hc] at hdm
    have hc1 : M * 2 ^ 33 ≤ c * W := by rw [mul_comm c W]; omega
    have hc2 : c * W ≤ M * 2 ^ 33 + W := by rw [mul_comm c W]; omega
    have hc3 : c ≤ 2 ^ 53 := by
      have h : c * W ≤ 2 ^ 34 * W := by
        have : M * 2 ^ 33 ≤ W * 2 ^ 33 := Nat.mul_le_mul_right _ (by omega)
        have e : (2 : Nat) ^ 34 * W = W * 2 ^ 33 + W * 2 ^ 33 := by ring
        have : W ≤ W * 2 ^ 33 := by
          calc W = W * 1 := (mul_one W).symm
            _ ≤ W * 2 ^ 33 := Nat.mul_le_mul_left _ (by norm_num)
        omega
      have := Nat.le_of_mul_le_mul_right h hW
      exact le_trans this (by norm_num)
    have hu := roundNearestEven_le M W c 33 hM hW hlt hc3 hc1
    generalize (roundNearestEven M W).1 = a at hle hu
    generalize (roundNearestEven M W).2 = ea at hle hu
    have hea : 0 < 2 ^ ea := by positivity
    have key : (n * 2 ^ 33 * W) * 2 ^ ea ≤ ((M * 2 ^ 33 + W) * 2 ^ e) * 2 ^ ea := by
      calc (n * 2 ^ 33 * W) * 2 ^ ea = (n * 2 ^ ea) * (2 ^ 33 * W) := by ring
        _ ≤ (a * 2 ^ e) * (2 ^ 33 * W) := Nat.mul_le_mul_right _ hle
        _ = (a * 2 ^ 33) * (2 ^ e * W) := by ring
        _ ≤ (c * 2 ^ ea) * (2 ^ e * W) := Nat.mul_le_mul_right _ hu
        _ = (c * W) * (2 ^ e * 2 ^ ea) := by ring
        _ ≤ (M * 2 ^ 33 + W) * (2 ^ e * 2 ^ ea) := Nat.mul_le_mul_right _ hc2
        _ = ((M * 2 ^ 33 + W) * 2 ^ e) * 2 ^ ea := by ring
    have key2 : n * 2 ^ 33 * W ≤ (M * 2 ^ 33 + W) * 2 ^ e :=
      Nat.le_of_mul_le_mul_right key hea
    have key3 : (W * n * 2 ^ 2) * 2 ^ 33 ≤ ((4 * M + 1) * 2 ^ e) * 2 ^ 33 := by
      calc (W * n * 2 ^ 2) * 2 ^ 33 = 4 * (n * 2 ^ 33 * W) := by ring
        _ ≤ 4 * ((M * 2 ^ 33 + W) * 2 ^ e) := Nat.mul_le_mul_left _ key2
        _ = (4 * M * 2 ^ 33 + 4 * W) * 2 ^ e := by ring
        _ ≤ (4 * M * 2 ^ 33 + 2 ^ 33) * 2 ^ e := Nat.mul_le_mul_right _ (by omega)
        _ = ((4 * M + 1) * 2 ^ e) * 2 ^ 33 := by ring
    exact Nat.le_of_mul_le_mul_right key3 (by positivity)

theorem mulInt_one_lround (W : Nat) (hW : 0 < W) (hW2 : W ≤ 2147483647) :
    (F64.mulInt (W : Int) (F64.fin 1 0)).lround = some (W : Int) := by
  have h := mulInt_fin W 1 0
  simp only [Nat.cast_one, mul_one, pow_zero] at h
  obtain ⟨a, ha⟩ := roundNearestEven_int W hW (by omega)
  rw [h, ha]
  have hX : 0 < 2 ^ a := by positivity
  have e : (2 * (W * 2 ^ a) + 2 ^ a) / 2 ^ (a + 1) = W := by
    rw [pow_succ]
    apply Nat.div_eq_of_lt_le
    · calc W * (2 ^ a * 2) = 2 * (W * 2 ^ a) := by ring
        _ ≤ 2 * (W * 2 ^ a) + 2 ^ a := Nat.le_add_right _ _
    · have : (W + 1) * (2 ^ a * 2) = 2 * (W * 2 ^ a) + 2 * 2 ^ a := by ring
      omega
  have := lround_fin (W * 2 ^ a) a (by rw [e]; exact hW2)
  rw [e] at this
  exact this

theorem RoundUpToMultipleOf8_le (v : Int) (h1 : 0 ≤ v) (h2 : v ≤ INT32_MAX) :
    RoundUpToMultipleOf8 v ≤ v + 7 := by
  unfold INT32_MAX at h2
  unfold RoundUpToMultipleOf8 toUInt32 ofUInt32
  have hu : ((v + 7) % 4294967296).toNat < 4294967296 := by omega
  rw [land_mask _ hu]
  split_ifs <;> omega

/-! ## Claims about `ComputeVideoSize` -/

/-- Claim C1, as stated, fails: a 100 x 100 display with a maximal resolution of 10 x 10 gets
the video size 16 x 16, which exceeds the maximal resolution in both dimensions. -/
theorem ComputeVideoSize_exceeds_max :
    ComputeVideoSize { width := 100, height := 100 } { width := 10, height := 10 }
      = some { width := 16, height := 16 } := by
  decide

/-- Claim C1, amended.  For a display size and a maximal resolution with positive `int32_t`
dimensions, the scaled dimensions `lround(width * scale)` and `lround(height * scale)` do not
exceed the maximal resolution, and the size returned, which rounds them up to multiples
of 8, exceeds the maximal resolution by at most 7 in each dimension. -/
theorem ComputeVideoSize_le_max (d m : Size) (hdw : 0 < d.width) (hdh : 0 < d.height)
    (hmw : 0 < m.width) (hmh : 0 < m.height) (hd1 : d.width ≤ INT32_MAX)
    (hd2 : d.height ≤ INT32_MAX) (hm1 : m.width ≤ INT32_MAX) (hm2 : m.height ≤ INT32_MAX) :
    ∃ w h : Int,
      (F64.mulInt d.width (videoScale d m)).lround = some w ∧
      (F64.mulInt d.height (videoScale d m)).lround = some h ∧
      w ≤ m.width ∧ h ≤ m.height ∧
      ComputeVideoSize d m
        = some { width := RoundUpToMultipleOf8 w, height := RoundUpToMultipleOf8 h } ∧
      RoundUpToMultipleOf8 w ≤ m.width + 7 ∧ RoundUpToMultipleOf8 h ≤ m.height + 7 := by
  obtain ⟨dw, dh⟩ := d
  obtain ⟨mw, mh⟩ := m
  simp only [INT32_MAX] at hdw hdh hmw hmh hd1 hd2 hm1 hm2
  obtain ⟨W, rfl⟩ := Int.eq_ofNat_of_zero_le (le_of_lt hdw)
  obtain ⟨H, rfl⟩ := Int.eq_ofNat_of_zero_le (le_of_lt hdh)
  obtain ⟨MW, rfl⟩ := Int.eq_ofNat_of_zero_le (le_of_lt hmw)
  obtain ⟨MH, rfl⟩ := Int.eq_ofNat_of_zero_le (le_of_lt hmh)
  have hW : 0 < W := by omega
  have hH : 0 < H := by omega
  have hMW : 0 < MW := by omega
  have hMH : 0 < MH := by omega
  have hbw : MW < W * 2 ^ 53 := by
    calc MW < 1 * 2 ^ 53 := by omega
      _ ≤ W * 2 ^ 53 := Nat.mul_le_mul_right _ hW
  have hbh : MH < H * 2 ^ 53 := by
    calc MH < 1 * 2 ^ 53 := by omega
      _ ≤ H * 2 ^ 53 := Nat.mul_le_mul_right _ hH
  obtain ⟨n, e, hs, hn, h1, hlw, hlh, -⟩ := videoScale_pos W H MW MH hW hH hMW hMH hbw hbh
  have hsw := scale_mul_le W MW n e hW (by omega) hMW (by omega) h1 hlw
  have hsh := scale_mul_le H MH n e hH (by omega) hMH (by omega) h1 hlh
  obtain ⟨v, hv, hvB, hvW⟩ := mulInt_lround_le W n e MW hW (by omega) hn h1 (by omega) hsw
  obtain ⟨u, hu, huB, huW⟩ := mulInt_lround_le H n e MH hH (by omega) hn h1 (by omega) hsh
  refine ⟨(v : Int), (u : Int), ?_, ?_, ?_, ?_, ?_, ?_, ?_⟩
  · rw [hs]; exact hv
  · rw [hs]; exact hu
  · show (v : Int) ≤ (MW : Int)
    omega
  · show (u : Int) ≤ (MH : Int)
    omega
  · simp only [ComputeVideoSize, hs, hv, hu]
  · have := RoundUpToMultipleOf8_le (v : Int) (by omega) (by unfold INT32_MAX; omega)
    show RoundUpToMultipleOf8 (v : Int) ≤ (MW : Int) + 7
    omega
  · have := RoundUpToMultipleOf8_le (u : Int) (by omega) (by unfold INT32_MAX; omega)
    show RoundUpToMultipleOf8 (u : Int) ≤ (MH : Int) + 7
    omega

/-- Claim C1, amended, at an instance: a 1080 x 1920 display limited to 1000 x 1000. -/
theorem ComputeVideoSize_le_max_witness :
    ∃ w h : Int,
      (F64.mulInt 1080 (videoScale { width := 1080, height := 1920 }
        { width := 1000, height := 1000 })).lround = some w ∧
      (F64.mulInt 1920 (videoScale { width := 1080, height := 1920 }
        { width := 1000, height := 1000 })).lround = some h ∧
      w ≤ 1000 ∧ h ≤ 1000 ∧
      ComputeVideoSize { width := 1080, height := 1920 } { width := 1000, height := 1000 }
        = some { width := RoundUpToMultipleOf8 w, height := RoundUpToMultipleOf8 h } ∧
      RoundUpToMultipleOf8 w ≤ 1000 + 7 ∧ RoundUpToMultipleOf8 h ≤ 1000 + 7 :=
  ComputeVideoSize_le_max { width := 1080, height := 1920 } { width := 1000, height := 1000 }
    (by decide) (by decide) (by decide) (by decide) (by decide) (by decide) (by decide)
    (by decide)

/-- Claim C6.  Whenever the scaled dimensions are at most `INT32_MAX - 7`, `ComputeVideoSize`
returns a size whose width and height are multiples of 8; and for `0 ≤ v ≤ INT32_MAX - 7`,
`RoundUpToMultipleOf8 v` is the least multiple of 8 that is at least `v`. -/
theorem ComputeVideoSize_multiple_of_8 :
    (∀ (d m : Size) (w h : Int),
      (F64.mulInt d.width (videoScale d m)).lround = some w →
      (F64.mulInt d.height (videoScale d m)).lround = some h →
      w ≤ INT32_MAX - 7 → h ≤ INT32_MAX - 7 →
      ∃ s : Size, ComputeVideoSize d m = some s ∧ 8 ∣ s.width ∧ 8 ∣ s.height) ∧
    (∀ v : Int, 0 ≤ v → v ≤ INT32_MAX - 7 →
      8 ∣ RoundUpToMultipleOf8 v ∧ v ≤ RoundUpToMultipleOf8 v ∧
      ∀ k : Int, 8 ∣ k → v ≤ k → RoundUpToMultipleOf8 v ≤ k) := by
  constructor
  · intro d m w h hw hh _ _
    refine ⟨{ width := RoundUpToMultipleOf8 w, height := RoundUpToMultipleOf8 h }, ?_,
      RoundUpToMultipleOf8_dvd w, RoundUpToMultipleOf8_dvd h⟩
    simp only [ComputeVideoSize, hw, hh]
  · intro v h0 h7
    have e := RoundUpToMultipleOf8_eq v (by unfold INT32_MIN; omega) h7
    refine ⟨RoundUpToMultipleOf8_dvd v, ?_, ?_⟩
    · rw [e]; omega
    · intro k hk hvk
      rw [e]
      obtain ⟨j, rfl⟩ := hk
      omega

/-- Claim C6, at an instance: a 1080 x 1920 display limited to 1000 x 1000, whose scaled
dimensions are 563 and 1000, and the value 563. -/
theorem ComputeVideoSize_multiple_of_8_witness :
    (F64.mulInt 1080 (videoScale { width := 1080, height := 1920 }
        { width := 1000, height := 1000 })).lround = some 563 ∧
    (F64.mulInt 1920 (videoScale { width := 1080, height := 1920 }
        { width := 1000, height := 1000 })).lround = some 1000 ∧
    (∃ s : Size,
      ComputeVideoSize { width := 1080, height := 1920 } { width := 1000, height := 1000 }
        = some s ∧ 8 ∣ s.width ∧ 8 ∣ s.height) ∧
    (8 ∣ RoundUpToMultipleOf8 563 ∧ 563 ≤ RoundUpToMultipleOf8 563 ∧
      ∀ k : Int, 8 ∣ k → 563 ≤ k → RoundUpToMultipleOf8 563 ≤ k) :=
  ⟨by decide, by decide,
    ComputeVideoSize_multiple_of_8.1 { width := 1080, height := 1920 }
      { width := 1000, height := 1000 } 563 1000 (by decide) (by decide) (by decide)
      (by decide),
    ComputeVideoSize_multiple_of_8.2 563 (by decide) (by decide)⟩

/-- Claim C7.  For a display size with positive dimensions and a maximal resolution that is at
least as large in both dimensions (all `int32_t`), `ComputeVideoSize` returns the display size
with each dimension rounded up by `RoundUpToMultipleOf8`: the display is not upscaled. -/
theorem ComputeVideoSize_no_upscale (d m : Size) (hdw : 0 < d.width) (hdh : 0 < d.height)
    (hw : d.width ≤ m.width) (hh : d.height ≤ m.height) (hm1 : m.width ≤ INT32_MAX)
    (hm2 : m.height ≤ INT32_MAX) :
    ComputeVideoSize d m
      = some { width := RoundUpToMultipleOf8 d.width,
               height := RoundUpToMultipleOf8 d.height } := by
  obtain ⟨dw, dh⟩ := d
  obtain ⟨mw, mh⟩ := m
  simp only [INT32_MAX] at hdw hdh hw hh hm1 hm2
  obtain ⟨W, rfl⟩ := Int.eq_ofNat_of_zero_le (le_of_lt hdw)
  obtain ⟨H, rfl⟩ := Int.eq_ofNat_of_zero_le (le_of_lt hdh)
  obtain ⟨MW, rfl⟩ := Int.eq_ofNat_of_zero_le (le_trans (le_of_lt hdw) hw)
  obtain ⟨MH, rfl⟩ := Int.eq_ofNat_of_zero_le (le_trans (le_of_lt hdh) hh)
  have hW : 0 < W := by omega
  have hH : 0 < H := by omega
  have hbw : MW < W * 2 ^ 53 := by
    calc MW < 1 * 2 ^ 53 := by omega
      _ ≤ W * 2 ^ 53 := Nat.mul_le_mul_right _ hW
  have hbh : MH < H * 2 ^ 53 := by
    calc MH < 1 * 2 ^ 53 := by omega
      _ ≤ H * 2 ^ 53 := Nat.mul_le_mul_right _ hH
  obtain ⟨n, e, hs, -, -, -, -, hone⟩ :=
    videoScale_pos W H MW MH hW hH (by omega) (by omega) hbw hbh
  obtain ⟨rfl, rfl⟩ := hone (roundNearestEven_ge_one MW W hW (by omega) hbw)
    (roundNearestEven_ge_one MH H hH (by omega) hbh)
  have h1 := mulInt_one_lround W hW (by omega)
  have h2 := mulInt_one_lround H hH (by omega)
  simp only [Nat.cast_one] at hs
  simp only [ComputeVideoSize, hs, h1, h2]

/-- Claim C7, at an instance: a 1080 x 1920 display with a maximal resolution of
2000 x 2000. -/
theorem ComputeVideoSize_no_upscale_witness :
    ComputeVideoSize { width := 1080, height := 1920 } { width := 2000, height := 2000 }
      = some { width := RoundUpToMultipleOf8 1080, height := RoundUpToMultipleOf8 1920 } :=
  ComputeVideoSize_no_upscale { width := 1080, height := 1920 }
    { width := 2000, height := 2000 } (by decide) (by decide) (by decide) (by decide)
    (by decide) (by decide)

/-! ## Changes of the maximal resolution and of the orientation -/

/-- Claim C15.  A call of `SetMaxVideoResolution` with a resolution that differs from
`max_video_resolution_` stores it and leaves `running_codec_` absent, stopping the codec if
one was running; with the current resolution it changes neither `max_video_resolution_` nor
`running_codec_`.  In both cases `video_orientation_` and `display_info_` stay as they are. -/
theorem SetMaxVideoResolution_same_or_different (s : DisplayStreamer) (m : Size) :
    (m ≠ s.max_video_resolution_ →
      (s.SetMaxVideoResolution m).max_video_resolution_ = m ∧
      (s.SetMaxVideoResolution m).running_codec_ = none ∧
      (∀ codec, s.running_codec_ = some codec →
        (s.SetMaxVideoResolution m).log = s.log ++ [Effect.AMediaCodec_stop codec])) ∧
    (m = s.max_video_resolution_ →
      (s.SetMaxVideoResolution m).max_video_resolution_ = s.max_video_resolution_ ∧
      (s.SetMaxVideoResolution m).running_codec_ = s.running_codec_ ∧
      (s.SetMaxVideoResolution m).log = s.log) ∧
    (s.SetMaxVideoResolution m).video_orientation_ = s.video_orientation_ ∧
    (s.SetMaxVideoResolution m).display_info_ = s.display_info_ := by
  by_cases hm : s.max_video_resolution_ = m
  · subst hm
    simp [DisplayStreamer.SetMaxVideoResolution]
  · have hm2 : ¬ m = s.max_video_resolution_ := fun e => hm e.symm
    cases hc : s.running_codec_ <;>
      simp [DisplayStreamer.SetMaxVideoResolution, DisplayStreamer.StopCodecUnlocked,
        DisplayStreamer.emit, hm, hm2, hc]

/-- Claim C15, at an instance: the resolution 720 x 1280 is requested while 1080 x 1920 is
stored and codec 1 is running. -/
theorem SetMaxVideoResolution_same_or_different_witness :
    ({ width := 720, height := 1280 } : Size)
      ≠ DisplayStreamer.max_video_resolution_ { exampleStreamer with running_codec_ := some 1 } ∧
    (DisplayStreamer.SetMaxVideoResolution { exampleStreamer with running_codec_ := some 1 }
      { width := 720, height := 1280 }).max_video_resolution_
      = { width := 720, height := 1280 } ∧
    (DisplayStreamer.SetMaxVideoResolution { exampleStreamer with running_codec_ := some 1 }
      { width := 720, height := 1280 }).running_codec_ = none :=
  ⟨by decide,
    ((SetMaxVideoResolution_same_or_different { exampleStreamer with running_codec_ := some 1 }
      { width := 720, height := 1280 }).1 (by decide)).1,
    ((SetMaxVideoResolution_same_or_different { exampleStreamer with running_codec_ := some 1 }
      { width := 720, height := 1280 }).1 (by decide)).2.1⟩

/-- Claim C16.  `SetVideoOrientation` never makes `video_orientation_` negative: if it is
non-negative before a call, with any argument, it is non-negative after it; and a call with a
negative argument leaves `video_orientation_` and `running_codec_` as they are. -/
theorem SetVideoOrientation_never_negative (s : DisplayStreamer) (orientation : Int)
    (rotation_was_frozen : Bool) :
    (0 ≤ s.video_orientation_ →
      0 ≤ (s.SetVideoOrientation orientation rotation_was_frozen).video_orientation_) ∧
    (orientation < 0 →
      (s.SetVideoOrientation orientation rotation_was_frozen).video_orientation_
        = s.video_orientation_ ∧
      (s.SetVideoOrientation orientation rotation_was_frozen).running_codec_
        = s.running_codec_) := by
  constructor
  · intro h0
    by_cases hneg : orientation < 0
    · cases rotation_was_frozen <;>
        simp [DisplayStreamer.SetVideoOrientation, DisplayStreamer.emit, hneg, h0]
    · have hge : 0 ≤ orientation := not_lt.mp hneg
      by_cases heq : s.video_orientation_ = orientation
      · cases rotation_was_frozen <;>
          simp [DisplayStreamer.SetVideoOrientation, DisplayStreamer.emit, hneg, hge, heq]
      · cases rotation_was_frozen <;> cases hc : s.running_codec_ <;>
          simp [DisplayStreamer.SetVideoOrientation, DisplayStreamer.emit,
            DisplayStreamer.StopCodecUnlocked, hneg, hge, heq, hc]
  · intro hneg
    by_cases h0 : 0 ≤ s.video_orientation_
    · cases rotation_was_frozen <;>
        simp [DisplayStreamer.SetVideoOrientation, DisplayStreamer.emit, hneg, h0]
    · cases rotation_was_frozen <;>
        simp [DisplayStreamer.SetVideoOrientation, DisplayStreamer.emit, hneg, h0]

/-- Claim C16, at an instance: orientation 2 is active, codec 1 is running and `-1` is
requested. -/
theorem SetVideoOrientation_never_negative_witness :
    (0 : Int) ≤ DisplayStreamer.video_orientation_
      { exampleStreamer with video_orientation_ := 2, running_codec_ := some 1 } ∧
    (-1 : Int) < 0 ∧
    (DisplayStreamer.SetVideoOrientation
      { exampleStreamer with video_orientation_ := 2, running_codec_ := some 1 }
      (-1) false).video_orientation_ = 2 ∧
    (DisplayStreamer.SetVideoOrientation
      { exampleStreamer with video_orientation_ := 2, running_codec_ := some 1 }
      (-1) false).running_codec_ = some 1 ∧
    (0 : Int) ≤ (DisplayStreamer.SetVideoOrientation
      { exampleStreamer with video_orientation_ := 2, running_codec_ := some 1 }
      (-1) false).video_orientation_ :=
  ⟨by decide, by decide,
    ((SetVideoOrientation_never_negative
      { exampleStreamer with video_orientation_ := 2, running_codec_ := some 1 }
      (-1) false).2 (by decide)).1,
    ((SetVideoOrientation_never_negative
      { exampleStreamer with video_orientation_ := 2, running_codec_ := some 1 }
      (-1) false).2 (by decide)).2,
    (SetVideoOrientation_never_negative
      { exampleStreamer with video_orientation_ := 2, running_codec_ := some 1 }
      (-1) false).1 (by decide)⟩

/-! ## The result of the write -/

/-- Claim C11.  In an iteration of the frame loop that reaches the `writev`: when the value
returned by `writev` differs from the sum of the two `iov_len`, the function ends in
`Log::Fatal` unless `errno` is `EBADF` or `EPIPE`; with `EBADF` or `EPIPE` the loop ends after
the iteration and the function returns `true`; when the value returned equals the sum and the
buffer is not an end-of-stream buffer, the loop goes on with `end_of_stream = false`. -/
theorem frameLoop_write_result (sizeof_header : Nat) (f : FrameStep) (rest : List FrameStep)
    (s : DisplayStreamer) (h : VideoPacketHeader) (count : Int)
    (hrun : (s.calls f.before).IsCodecRunning = true)
    (hdeq : CodecOutputBuffer.Deque (s.calls f.before).consequent_error_count f.dequeue
      = some (true, count))
    (hrun2 : (DisplayStreamer.calls { s.calls f.before with consequent_error_count := count }
        f.between).IsCodecRunning = true) :
    (toSizeT f.written ≠ toSizeT ((sizeof_header : Int) + toSizeT f.dequeue.info.size) →
      f.errno ≠ EBADF → f.errno ≠ EPIPE →
      (DisplayStreamer.frameLoop sizeof_header (f :: rest) false s h).outcome
        = Outcome.fatal) ∧
    (toSizeT f.written ≠ toSizeT ((sizeof_header : Int) + toSizeT f.dequeue.info.size) →
      (f.errno = EBADF ∨ f.errno = EPIPE) →
      (DisplayStreamer.frameLoop sizeof_header (f :: rest) false s h).outcome
        = Outcome.returned true) ∧
    (toSizeT f.written = toSizeT ((sizeof_header : Int) + toSizeT f.dequeue.info.size) →
      f.dequeue.info.IsEndOfStream = false →
      DisplayStreamer.frameLoop sizeof_header (f :: rest) false s h
        = DisplayStreamer.frameLoop sizeof_header rest false
            ((DisplayStreamer.calls { s.calls f.before with consequent_error_count := count }
              f.between).writeFrame sizeof_header f h).2.1
            ((DisplayStreamer.calls { s.calls f.before with consequent_error_count := count }
              f.between).writeFrame sizeof_header f h).2.2) := by
  refine ⟨?_, ?_, ?_⟩
  · intro hne h1 h2
    simp [DisplayStreamer.frameLoop, hrun, hdeq, hrun2, DisplayStreamer.writeFrame, hne, h1, h2]
  · intro hne herr
    have hnot : ¬ (f.errno ≠ EBADF ∧ f.errno ≠ EPIPE) := by
      rintro ⟨h1, h2⟩
      rcases herr with e | e
      · exact h1 e
      · exact h2 e
    simp only [DisplayStreamer.frameLoop, hrun, hdeq, hrun2, DisplayStreamer.writeFrame,
      Bool.not_true, Bool.false_eq_true, if_false, ne_eq, hne, not_false_eq_true, if_true, hnot]
  · intro heq heos
    simp only [DisplayStreamer.frameLoop, hrun, hdeq, hrun2, DisplayStreamer.writeFrame,
      Bool.not_true, Bool.false_eq_true, if_false, ne_eq, heq, not_true_eq_false, heos]

/-- Claim C11, at an instance: `writev` returns `-1` with `errno = EPIPE` for a buffer of 100
bytes. -/
theorem frameLoop_write_result_witness :
    ({ exampleStreamer with running_codec_ := some 1 }.calls
      (exampleFrame 100 1000 0).before).IsCodecRunning = true ∧
    toSizeT (-1) ≠ toSizeT (((40 : Nat) : Int) + toSizeT 100) ∧
    (DisplayStreamer.frameLoop 40
      [{ exampleFrame 100 1000 0 with written := -1, errno := EPIPE },
       exampleFrame 100 2000 0] false
      { exampleStreamer with running_codec_ := some 1 } (exampleHeader 0 0)).outcome
      = Outcome.returned true :=
  ⟨by decide, by decide,
    (frameLoop_write_result 40 { exampleFrame 100 1000 0 with written := -1, errno := EPIPE }
      [exampleFrame 100 2000 0] { exampleStreamer with running_codec_ := some 1 }
      (exampleHeader 0 0) 0 (by decide) (by decide) (by decide)).2.1 (by decide)
      (Or.inr (by decide))⟩

/-! ## Dequeue errors -/

theorem Deque_negative (count : Int) (r : DequeueResult) (h : r.index < 0) :
    CodecOutputBuffer.Deque count r
      = if count + 1 ≥ 10 then none else some (false, count + 1) := by
  simp [CodecOutputBuffer.Deque, h, MAX_SUBSEQUENT_ERRORS]

theorem Deque_nonnegative (count : Int) (r : DequeueResult) (h : 0 ≤ r.index) :
    CodecOutputBuffer.Deque count r = some (!r.buffer_is_null, 0) := by
  have h2 : ¬ r.index < 0 := not_lt.mpr h
  cases hb : r.buffer_is_null <;> simp [CodecOutputBuffer.Deque, h2, hb]

theorem dequeAll_count (rs : List DequeueResult) :
    ∀ (n : Nat) (count : Int), n < 10 → dequeAll (n : Int) rs = some count →
      count = (errorRunFrom n rs : Int) ∧ errorRunFrom n rs < 10 := by
  induction rs with
  | nil =>
    intro n count hn h
    simp only [dequeAll, Option.some.injEq] at h
    exact ⟨h.symm, hn⟩
  | cons r rest ih =>
    intro n count hn h
    by_cases hr : r.index < 0
    · simp only [dequeAll, Deque_negative _ r hr] at h
      by_cases h10 : (n : Int) + 1 ≥ 10
      · simp [h10] at h
      · simp only [h10, if_false] at h
        have := ih (n + 1) count (by omega) (by simpa using h)
        simpa [errorRunFrom, hr] using this
    · simp only [dequeAll, Deque_nonnegative _ r (not_lt.mp hr)] at h
      have := ih 0 count (by omega) (by simpa using h)
      simpa [errorRunFrom, hr] using this

theorem dequeAll_total (rs : List DequeueResult) :
    ∀ n : Nat, (∀ k, k ≤ rs.length → errorRunFrom n (rs.take k) < 10) →
      ∃ count, dequeAll (n : Int) rs = some count := by
  induction rs with
  | nil => intro n _; exact ⟨_, rfl⟩
  | cons r rest ih =>
    intro n h
    have h1 := h 1 (by simp)
    simp only [List.take_succ_cons, List.take_zero, errorRunFrom] at h1
    by_cases hr : r.index < 0
    · simp only [hr, if_true] at h1
      have h10 : ¬ ((n : Int) + 1 ≥ 10) := by omega
      obtain ⟨c, hc⟩ := ih (n + 1) (by
        intro k hk
        have := h (k + 1) (by simpa using hk)
        simpa [errorRunFrom, hr] using this)
      refine ⟨c, ?_⟩
      simp only [dequeAll, Deque_negative _ r hr, h10, if_false]
      simpa using hc
    · obtain ⟨c, hc⟩ := ih 0 (by
        intro k hk
        have := h (k + 1) (by simpa using hk)
        simpa [errorRunFrom, hr] using this)
      refine ⟨c, ?_⟩
      simp only [dequeAll, Deque_nonnegative _ r (not_lt.mp hr)]
      simpa using hc

/-- Claim C12.  After any sequence of calls of `Deque` that has not ended the process, the
static counter is the length of the run of negative indices that ends the sequence, which is
below 10; the next call ends the process exactly when its index is negative and makes that
run 10 long; a negative index that makes the run shorter than 10 gives `false` and counts one
more; a non-negative index resets the counter to 0.  A sequence in which no run reaches 10 is
processed without ending the process, and the frame loop goes on to its next iteration when
`Deque` returns `false`. -/
theorem Deque_fatal_on_tenth_error :
    (∀ (rs : List DequeueResult) (count : Int), dequeAll 0 rs = some count →
      count = (errorRun rs : Int) ∧ errorRun rs < 10 ∧
      ∀ r : DequeueResult,
        (r.index < 0 → errorRun rs + 1 = 10 → CodecOutputBuffer.Deque count r = none) ∧
        (r.index < 0 → errorRun rs + 1 < 10 →
          CodecOutputBuffer.Deque count r = some (false, (errorRun rs : Int) + 1)) ∧
        (0 ≤ r.index → CodecOutputBuffer.Deque count r = some (!r.buffer_is_null, 0))) ∧
    (∀ rs : List DequeueResult, (∀ k, k ≤ rs.length → errorRun (rs.take k) < 10) →
      ∃ count, dequeAll 0 rs = some count) ∧
    (∀ (sizeof_header : Nat) (f : FrameStep) (rest : List FrameStep) (s : DisplayStreamer)
        (h : VideoPacketHeader) (count : Int),
      (s.calls f.before).IsCodecRunning = true →
      CodecOutputBuffer.Deque (s.calls f.before).consequent_error_count f.dequeue
        = some (false, count) →
      DisplayStreamer.frameLoop sizeof_header (f :: rest) false s h
        = DisplayStreamer.frameLoop sizeof_header rest false
            { s.calls f.before with consequent_error_count := count } h) := by
  refine ⟨?_, ?_, ?_⟩
  · intro rs count h
    obtain ⟨hc, hlt⟩ := dequeAll_count rs 0 count (by norm_num) (by simpa using h)
    refine ⟨hc, hlt, ?_⟩
    intro r
    refine ⟨?_, ?_, ?_⟩
    · intro hr h10
      rw [Deque_negative _ r hr, hc]
      have : ((errorRun rs : Nat) : Int) + 1 ≥ 10 := by omega
      simp only [errorRun] at this
      simp [this]
    · intro hr h10
      rw [Deque_negative _ r hr, hc]
      have : ¬ (((errorRun rs : Nat) : Int) + 1 ≥ 10) := by omega
      simp only [errorRun] at this
      simp only [this, if_false, errorRun]
    · intro hr
      exact Deque_nonnegative _ r hr
  · intro rs h
    simpa using dequeAll_total rs 0 h
  · intro sizeof_header f rest s h count hrun hdeq
    simp [DisplayStreamer.frameLoop, hrun, hdeq]

/-- Claim C12, at an instance: nine negative indices in a row are survived, and the tenth
ends the process. -/
theorem Deque_fatal_on_tenth_error_witness :
    dequeAll 0 (List.replicate 9
      { index := -1, info := (exampleFrame 0 0 0).dequeue.info, buffer_is_null := false })
      = some 9 ∧
    errorRun (List.replicate 9
      { index := -1, info := (exampleFrame 0 0 0).dequeue.info, buffer_is_null := false }) + 1
      = 10 ∧
    CodecOutputBuffer.Deque 9
      { index := -1, info := (exampleFrame 0 0 0).dequeue.info, buffer_is_null := false }
      = none :=
  ⟨by decide, by decide,
    ((Deque_fatal_on_tenth_error.1 (List.replicate 9
      { index := -1, info := (exampleFrame 0 0 0).dequeue.info, buffer_is_null := false })
      9 (by decide)).2.2
      { index := -1, info := (exampleFrame 0 0 0).dequeue.info, buffer_is_null := false }).1
      (by decide) (by decide)⟩

/-! ## A maximal resolution with a zero dimension -/

theorem videoScale_zero (W H MW MH : Nat) (hW : 0 < W) (hH : 0 < H)
    (hbw : MW < W * 2 ^ 53) (hz : MW = 0 ∨ MH = 0) :
    videoScale { width := (W : Int), height := (H : Int) }
        { width := (MW : Int), height := (MH : Int) } = F64.fin 1 0 := by
  simp only [videoScale, divInt_pos MW W hW, divInt_pos MH H hH]
  by_cases h0 : MW = 0
  · subst h0
    have e : roundNearestEven 0 W = (0, 0) := by simp [roundNearestEven]
    rw [e]
    generalize (roundNearestEven MH H).1 = b
    generalize (roundNearestEven MH H).2 = eb
    have hlt : ¬ ((b : Int) < 0) := by omega
    simp [F64.min, F64.lt, F64.ofInt, F64.isZero, hlt]
  · have h1 : MH = 0 := by
      rcases hz with h | h
      · exact absurd h h0
      · exact h
    subst h1
    have e : roundNearestEven 0 H = (0, 0) := by simp [roundNearestEven]
    rw [e]
    have ha := roundNearestEven_pos MW W (by omega) hW hbw
    generalize (roundNearestEven MW W).1 = a at ha
    generalize (roundNearestEven MW W).2 = ea
    have hlt : (0 : Int) < (a : Int) := by omega
    simp [F64.min, F64.lt, F64.ofInt, F64.isZero, hlt]

/-- Claim C17.  For a display size with positive `int32_t` dimensions and a maximal resolution
with non-negative `int32_t` dimensions of which at least one is 0, `ComputeVideoSize` does
not scale: it returns the display size with each dimension rounded up by
`RoundUpToMultipleOf8`, whatever the other maximal dimension is. -/
theorem ComputeVideoSize_zero_max (d m : Size) (hdw : 0 < d.width) (hdh : 0 < d.height)
    (hd1 : d.width ≤ INT32_MAX) (hd2 : d.height ≤ INT32_MAX) (hmw : 0 ≤ m.width)
    (hmh : 0 ≤ m.height) (hm1 : m.width ≤ INT32_MAX) (hm2 : m.height ≤ INT32_MAX)
    (hz : m.width = 0 ∨ m.height = 0) :
    ComputeVideoSize d m
      = some { width := RoundUpToMultipleOf8 d.width,
               height := RoundUpToMultipleOf8 d.height } := by
  obtain ⟨dw, dh⟩ := d
  obtain ⟨mw, mh⟩ := m
  simp only [INT32_MAX] at hdw hdh hd1 hd2 hmw hmh hm1 hm2 hz
  obtain ⟨W, rfl⟩ := Int.eq_ofNat_of_zero_le (le_of_lt hdw)
  obtain ⟨H, rfl⟩ := Int.eq_ofNat_of_zero_le (le_of_lt hdh)
  obtain ⟨MW, rfl⟩ := Int.eq_ofNat_of_zero_le hmw
  obtain ⟨MH, rfl⟩ := Int.eq_ofNat_of_zero_le hmh
  have hW : 0 < W := by omega
  have hH : 0 < H := by omega
  have hbw : MW < W * 2 ^ 53 := by
    calc MW < 1 * 2 ^ 53 := by omega
      _ ≤ W * 2 ^ 53 := Nat.mul_le_mul_right _ hW
  have hz2 : MW = 0 ∨ MH = 0 := by omega
  have hs := videoScale_zero W H MW MH hW hH hbw hz2
  have h1 := mulInt_one_lround W hW (by omega)
  have h2 := mulInt_one_lround H hH (by omega)
  simp only [ComputeVideoSize, hs, h1, h2]

/-- Claim C17, at an instance: a 1080 x 1920 display with the maximal resolution 0 x 1000. -/
theorem ComputeVideoSize_zero_max_witness :
    ComputeVideoSize { width := 1080, height := 1920 } { width := 0, height := 1000 }
      = some { width := RoundUpToMultipleOf8 1080, height := RoundUpToMultipleOf8 1920 } :=
  ComputeVideoSize_zero_max { width := 1080, height := 1920 } { width := 0, height := 1000 }
    (by decide) (by decide) (by decide) (by decide) (by decide) (by decide) (by decide)
    (by decide) (Or.inl (by decide))

/-! ## Rotation correction -/

theorem NormalizeRotation_sum (v r : Int) :
    NormalizeRotation (wrapInt32 (r + NormalizeRotation (wrapInt32 (v - r)))) = v % 4 := by
  unfold NormalizeRotation wrapInt32
  omega

/-- Claim C14.  In a pass of the loop of `Run` that reaches `AMediaCodec_start`, the rotation
correction passed to `ConfigureDisplay` is 0 when `video_orientation_` is negative and
`NormalizeRotation (video_orientation_ - display_info.rotation)` otherwise; the header field
`display_orientation` is `video_orientation_` modulo 4 when `video_orientation_ ≥ 0` and the
display rotation modulo 4 when `video_orientation_ < 0`; and `display_orientation_correction`
is that rotation correction, one of 0, 1, 2, 3. -/
theorem startSession_orientation (s : DisplayStreamer) (ses : Session) (codec : Nat)
    (h : VideoPacketHeader) (hok : (s.startSession ses codec h).1 = true) :
    (∃ video_size : Size,
      (s.startSession ses codec h).2.1.log
        = (s.atLock ses).log ++
          [Effect.AMediaCodec_configure video_size,
           Effect.ConfigureDisplay
             (if (s.atLock ses).video_orientation_ ≥ 0 then
                NormalizeRotation
                  (wrapInt32 ((s.atLock ses).video_orientation_ - ses.display_info.rotation))
              else 0)
             (video_size.Rotated
               (-(if (s.atLock ses).video_orientation_ ≥ 0 then
                    NormalizeRotation
                      (wrapInt32 ((s.atLock ses).video_orientation_ - ses.display_info.rotation))
                  else 0))),
           Effect.AMediaCodec_start codec]) ∧
    (s.startSession ses codec h).2.2.display_orientation_correction
      = (if (s.atLock ses).video_orientation_ ≥ 0 then
           NormalizeRotation
             (wrapInt32 ((s.atLock ses).video_orientation_ - ses.display_info.rotation))
         else 0) ∧
    0 ≤ (s.startSession ses codec h).2.2.display_orientation_correction ∧
    (s.startSession ses codec h).2.2.display_orientation_correction ≤ 3 ∧
    ((s.atLock ses).video_orientation_ ≥ 0 →
      (s.startSession ses codec h).2.2.display_orientation
        = (s.atLock ses).video_orientation_ % 4) ∧
    ((s.atLock ses).video_orientation_ < 0 →
      (s.startSession ses codec h).2.2.display_orientation = ses.display_info.rotation % 4) := by
  simp only [DisplayStreamer.startSession, DisplayStreamer.atLock] at hok ⊢
  generalize (s.emit (Effect.CreateDisplay (decide (ses.api_level < 31)))).calls ses.before
    = t at hok ⊢
  by_cases hnull : ses.display_is_null = true
  · simp [hnull] at hok
  · simp only [hnull, Bool.false_eq_true, if_false] at hok ⊢
    by_cases hv : t.video_orientation_ ≥ 0
    · simp only [hv, if_true] at hok ⊢
      cases hcv : ComputeVideoSize (ses.display_info.logical_size.Rotated (NormalizeRotation
          (wrapInt32 (t.video_orientation_ - ses.display_info.rotation))))
          t.max_video_resolution_ with
      | none => simp [hcv] at hok
      | some video_size =>
        simp only [hcv] at hok ⊢
        by_cases hst : ses.configure_status ≠ 0 ∨ ses.create_surface_status ≠ 0
        · simp [hst] at hok
        · simp only [hst, if_false]
          refine ⟨⟨video_size, by simp [DisplayStreamer.emit]⟩, ?_, ?_, ?_, ?_, ?_⟩
          · show NormalizeRotation (NormalizeRotation _) = NormalizeRotation _
            unfold NormalizeRotation; omega
          · show 0 ≤ NormalizeRotation (NormalizeRotation _)
            unfold NormalizeRotation; omega
          · show NormalizeRotation (NormalizeRotation _) ≤ 3
            unfold NormalizeRotation; omega
          · intro _
            exact NormalizeRotation_sum _ _
          · intro hneg
            omega
    · simp only [hv, if_false] at hok ⊢
      cases hcv : ComputeVideoSize (ses.display_info.logical_size.Rotated 0)
          t.max_video_resolution_ with
      | none => simp [hcv] at hok
      | some video_size =>
        simp only [hcv] at hok ⊢
        by_cases hst : ses.configure_status ≠ 0 ∨ ses.create_surface_status ≠ 0
        · simp [hst] at hok
        · simp only [hst, if_false]
          refine ⟨⟨video_size, by simp [DisplayStreamer.emit]⟩, ?_, ?_, ?_, ?_, ?_⟩
          · show NormalizeRotation 0 = 0
            decide
          · show 0 ≤ NormalizeRotation 0
            decide
          · show NormalizeRotation 0 ≤ 3
            decide
          · intro hge
            exact False.elim hge
          · intro _
            show NormalizeRotation (wrapInt32 (ses.display_info.rotation + 0)) = _
            unfold NormalizeRotation wrapInt32; omega

/-- Claim C14, at an instance: orientation 1 is requested on a display whose rotation is 3;
the correction is 2 and the header reports orientation 1. -/
theorem startSession_orientation_witness :
    (DisplayStreamer.startSession { exampleStreamer with video_orientation_ := 1 }
      { exampleSession 1 [] with
        display_info := { logical_size := { width := 1920, height := 1080 }, rotation := 3,
                          layer_stack := 0, flags := 0 } }
      1 (exampleHeader 0 0)).1 = true ∧
    (DisplayStreamer.startSession { exampleStreamer with video_orientation_ := 1 }
      { exampleSession 1 [] with
        display_info := { logical_size := { width := 1920, height := 1080 }, rotation := 3,
                          layer_stack := 0, flags := 0 } }
      1 (exampleHeader 0 0)).2.2.display_orientation_correction
      = (if (DisplayStreamer.atLock { exampleStreamer with video_orientation_ := 1 }
            { exampleSession 1 [] with
              display_info := { logical_size := { width := 1920, height := 1080 },
                                rotation := 3, layer_stack := 0, flags := 0 } }).video_orientation_
            ≥ 0 then
           NormalizeRotation (wrapInt32
             ((DisplayStreamer.atLock { exampleStreamer with video_orientation_ := 1 }
                { exampleSession 1 [] with
                  display_info := { logical_size := { width := 1920, height := 1080 },
                                    rotation := 3, layer_stack := 0,
                                    flags := 0 } }).video_orientation_ - 3))
         else 0) ∧
    (DisplayStreamer.startSession { exampleStreamer with video_orientation_ := 1 }
      { exampleSession 1 [] with
        display_info := { logical_size := { width := 1920, height := 1080 }, rotation := 3,
                          layer_stack := 0, flags := 0 } }
      1 (exampleHeader 0 0)).2.2.display_orientation_correction = 2 ∧
    (DisplayStreamer.startSession { exampleStreamer with video_orientation_ := 1 }
      { exampleSession 1 [] with
        display_info := { logical_size := { width := 1920, height := 1080 }, rotation := 3,
                          layer_stack := 0, flags := 0 } }
      1 (exampleHeader 0 0)).2.2.display_orientation = 1 :=
  ⟨by decide,
    (startSession_orientation { exampleStreamer with video_orientation_ := 1 }
      { exampleSession 1 [] with
        display_info := { logical_size := { width := 1920, height := 1080 }, rotation := 3,
                          layer_stack := 0, flags := 0 } }
      1 (exampleHeader 0 0) (by decide)).2.1,
    by decide, by decide⟩

/-! ## Monotone presentation timestamps -/

theorem framesSince_append_config (n : Nat) (pk : List Packet) (x : Packet)
    (hn : n ≤ pk.length) :
    ((pk ++ [x]).drop n).filter (fun p => !p.info.IsConfig)
      = (pk.drop n).filter (fun p => !p.info.IsConfig)
        ++ (if x.info.IsConfig then [] else [x]) := by
  rw [List.drop_append_of_le_length hn, List.filter_append]
  cases hc : x.info.IsConfig <;> simp [List.filter, hc]

theorem monotone_timestamps_kept (n : Nat) :
    KeptByWrite (fun pk offset _ =>
      n ≤ pk.length ∧
      (((∀ p ∈ (pk.drop n).filter (fun p => !p.info.IsConfig),
            0 ≤ p.info.presentationTimeUs ∧ p.info.presentationTimeUs < 2 ^ 62) ∧
          List.Chain' (fun a b : Packet => a.info.presentationTimeUs ≤ b.info.presentationTimeUs)
            ((pk.drop n).filter (fun p => !p.info.IsConfig))) →
        List.Chain' (fun a b : Packet =>
            a.header.presentation_timestamp_us ≤ b.header.presentation_timestamp_us)
          ((pk.drop n).filter (fun p => !p.info.IsConfig)) ∧
        -1 ≤ offset ∧ offset < 2 ^ 62 ∧
        ∀ last ∈ ((pk.drop n).filter (fun p => !p.info.IsConfig)).getLast?,
          last.header.presentation_timestamp_us = last.info.presentationTimeUs - offset ∧
          (offset = 0 → last.info.presentationTimeUs = 1))) := by
  intro pk offset frame_number header info hI _ _ hpts
  obtain ⟨hn, hI⟩ := hI
  refine ⟨by simp only [List.length_append, List.length_singleton]; omega, ?_⟩
  rw [framesSince_append_config n pk _ hn]
  generalize (pk.drop n).filter (fun p => !p.info.IsConfig) = q at hI ⊢
  by_cases hc : info.IsConfig = true
  · simp only [hc, if_true, List.append_nil, nextOffset]
    exact hI
  · simp only [hc, Bool.false_eq_true, if_false]
    rintro ⟨hb, hchain⟩
    rw [List.chain'_append] at hchain
    obtain ⟨hq, -, hlink⟩ := hchain
    obtain ⟨hC, ho1, ho2, hlast⟩ := hI ⟨fun p hp => hb p (List.mem_append_left _ hp), hq⟩
    obtain ⟨hx1, hx2⟩ := hb _ (List.mem_append_right _ (List.mem_singleton.mpr rfl))
    simp only [] at hx1 hx2
    have hnext : nextOffset offset info
        = if offset = 0 then info.presentationTimeUs - 1 else offset := by
      simp only [nextOffset, hc, Bool.false_eq_true, if_false]
      split_ifs
      · unfold wrapInt64; omega
      · rfl
    have hhdr : header.presentation_timestamp_us
        = info.presentationTimeUs - nextOffset offset info := by
      rw [hpts]
      simp only [hc, Bool.false_eq_true, if_false]
      rw [hnext]
      split_ifs <;> unfold wrapInt64 <;> omega
    refine ⟨?_, ?_, ?_, ?_⟩
    · rw [List.chain'_append]
      refine ⟨hC, List.chain'_singleton _, ?_⟩
      intro last hl y hy
      simp only [List.head?_cons, Option.mem_def, Option.some.injEq] at hy
      subst hy
      obtain ⟨hl1, hl2⟩ := hlast last hl
      have hle := hlink last hl { header := header, info := info, iov_len := toSizeT info.size }
        rfl
      simp only [] at hle ⊢
      rw [hl1, hhdr, hnext]
      split_ifs with h0
      · have := hl2 h0
        omega
      · omega
    · rw [hnext]; split_ifs <;> omega
    · rw [hnext]; split_ifs <;> omega
    · intro last hl
      simp only [List.getLast?_append, List.getLast?_singleton, Option.mem_def,
        Option.or_some, Option.some.injEq] at hl
      subst hl
      refine ⟨hhdr, ?_⟩
      rw [hnext]
      split_ifs with h0
      · intro h1; show info.presentationTimeUs = 1; omega
      · intro h1; exact absurd h1 h0

/-- Claim C13, as stated, fails: in a session whose two frames have the non-decreasing
`presentationTimeUs` values `0` and `2 ^ 63 - 1`, the offset captured at the first frame is
`-1`, the first frame is written with timestamp `1`, and the rebasing of the second one
overflows `int64_t`: it is written with `-2 ^ 63`. -/
theorem ProcessFramesUntilStopped_timestamp_overflow :
    (framesSince 0 ({ exampleStreamer with running_codec_ := some 1 }.ProcessFramesUntilStopped
        40 (exampleHeader 0 0)
        [exampleFrame 100 0 0, exampleFrame 100 9223372036854775807 0]).streamer.log).map
      (fun p => (p.info.presentationTimeUs, p.header.presentation_timestamp_us))
    = [(0, 1), (9223372036854775807, -9223372036854775808)] := by
  decide

/-- Claim C13, amended.  Within one call of `ProcessFramesUntilStopped`, that is one encoder
session: if `presentation_timestamp_offset_` is in `[-1, 2 ^ 62)` when the session starts and
the `presentationTimeUs` values of the buffers that are written and are not config buffers
lie in `[0, 2 ^ 62)` and never decrease, then the `presentation_timestamp_us` values written
for those buffers never decrease. -/
theorem ProcessFramesUntilStopped_timestamps_monotone (s : DisplayStreamer)
    (sizeof_header : Nat) (h : VideoPacketHeader) (steps : List FrameStep)
    (hoff : -1 ≤ s.presentation_timestamp_offset_ ∧ s.presentation_timestamp_offset_ < 2 ^ 62)
    (hrange : ∀ p ∈ framesSince (packets s.log).length
        (s.ProcessFramesUntilStopped sizeof_header h steps).streamer.log,
      0 ≤ p.info.presentationTimeUs ∧ p.info.presentationTimeUs < 2 ^ 62)
    (hmono : List.Chain' (fun a b : Packet => a.info.presentationTimeUs ≤ b.info.presentationTimeUs)
      (framesSince (packets s.log).length
        (s.ProcessFramesUntilStopped sizeof_header h steps).streamer.log)) :
    List.Chain' (fun a b : Packet =>
        a.header.presentation_timestamp_us ≤ b.header.presentation_timestamp_us)
      (framesSince (packets s.log).length
        (s.ProcessFramesUntilStopped sizeof_header h steps).streamer.log) := by
  have hk := (frameLoop_kept _ (monotone_timestamps_kept (packets s.log).length) sizeof_header
    steps false s h (by
      refine ⟨le_refl _, ?_⟩
      intro _
      simp only [List.drop_length, List.filter_nil]
      exact ⟨List.chain'_nil, hoff.1, hoff.2, by simp⟩)).2
  obtain ⟨_, -, hk⟩ := hk
  exact (hk ⟨hrange, hmono⟩).1

/-- Claim C13, amended, at an instance: a session with a config buffer and three frames. -/
theorem ProcessFramesUntilStopped_timestamps_monotone_witness :
    (-1 ≤ DisplayStreamer.presentation_timestamp_offset_
        { exampleStreamer with running_codec_ := some 1 } ∧
      DisplayStreamer.presentation_timestamp_offset_
        { exampleStreamer with running_codec_ := some 1 } < 2 ^ 62) ∧
    (framesSince 0 ({ exampleStreamer with running_codec_ := some 1 }.ProcessFramesUntilStopped
        40 (exampleHeader 0 0)
        [exampleFrame 30 0 2, exampleFrame 100 1000 0, exampleFrame 100 1000 0,
         exampleFrame 100 17000 0]).streamer.log).map
      (fun p => (p.info.presentationTimeUs, p.header.presentation_timestamp_us))
      = [(1000, 1), (1000, 1), (17000, 16001)] ∧
    List.Chain' (fun a b : Packet =>
        a.header.presentation_timestamp_us ≤ b.header.presentation_timestamp_us)
      (framesSince (packets (DisplayStreamer.log
          { exampleStreamer with running_codec_ := some 1 })).length
        ({ exampleStreamer with running_codec_ := some 1 }.ProcessFramesUntilStopped
          40 (exampleHeader 0 0)
          [exampleFrame 30 0 2, exampleFrame 100 1000 0, exampleFrame 100 1000 0,
           exampleFrame 100 17000 0]).streamer.log) :=
  ⟨by decide, by decide,
    ProcessFramesUntilStopped_timestamps_monotone
      { exampleStreamer with running_codec_ := some 1 } 40 (exampleHeader 0 0)
      [exampleFrame 30 0 2, exampleFrame 100 1000 0, exampleFrame 100 1000 0,
       exampleFrame 100 17000 0]
      (by decide) (by decide)
      (List.Pairwise.chain' (by decide))⟩

end screensharing
